import Mathlib

/-
Shallow embedding of the simulation core of the Punic-war strategy game
(sources: src/components/MapNode.tsx, src/services/geminiService.ts,
src/types.ts, src/unnamed/part_000 = constants.ts).

JS numbers are modelled as `Int` where the program only ever performs
integer arithmetic (gold, manpower, progress counters) and as `ℚ` where
fractional arithmetic occurs (unit strength, combat modifiers, random
draws).  `Math.random()` is modelled by threading an explicit stream of
rational draws in `[0,1)`.  `Record<string, GameNode>` is modelled as an
association list preserving JS object insertion order.
-/

namespace Punic

/-- Faction enum from src/types.ts. -/
inductive Faction where
  | ROME
  | CARTHAGE
  | NEUTRAL
  | SPECTATOR
deriving DecidableEq, Repr

/-- NodeType enum from src/types.ts. -/
inductive NodeType where
  | CITY
  | PORT
  | SEA
deriving DecidableEq, Repr

/-- UnitType enum from src/types.ts. -/
inductive UnitType where
  | LEGION
  | MERCENARY
  | FLEET
deriving DecidableEq, Repr

/-- GameNode interface from src/types.ts. -/
structure GameNode where
  id : String
  name : String
  type : NodeType
  x : ℚ
  y : ℚ
  owner : Faction
  income : Int
  manpowerGrowth : Int
  localManpower : Int
  maxManpower : Int
  connections : List String
  fortificationLevel : Int
deriving DecidableEq, Repr

/-- Unit interface from src/types.ts. -/
structure Unit where
  id : String
  owner : Faction
  type : UnitType
  strength : ℚ
  maxStrength : ℚ
  locationId : String
  destinationId : Option String
  path : List String
  originId : String
  progress : Int
  isMoving : Bool
  isTraining : Bool
  trainingProgress : Int
deriving DecidableEq, Repr

/-- A total map keyed by `Faction`, modelling `Record<Faction, number>`. -/
structure FactionMap (α : Type) where
  rome : α
  carthage : α
  neutral : α
  spectator : α
deriving DecidableEq, Repr

/-- Read the entry of a faction. -/
def FactionMap.get (m : FactionMap α) : Faction → α
  | .ROME => m.rome
  | .CARTHAGE => m.carthage
  | .NEUTRAL => m.neutral
  | .SPECTATOR => m.spectator

/-- Write the entry of a faction. -/
def FactionMap.set (m : FactionMap α) (f : Faction) (v : α) : FactionMap α :=
  match f with
  | .ROME => { m with rome := v }
  | .CARTHAGE => { m with carthage := v }
  | .NEUTRAL => { m with neutral := v }
  | .SPECTATOR => { m with spectator := v }

/-- `GameState.resources` from src/types.ts. -/
structure Resources where
  gold : FactionMap Int
  totalManpower : FactionMap Int
deriving DecidableEq, Repr

/-- GameState interface from src/types.ts. -/
structure GameState where
  nodes : List (String × GameNode)
  units : List Unit
  playerFaction : Faction
  resources : Resources
  day : Nat
  isWinter : Bool
  gameSpeed : Int
  selectedNodeId : Option String
  isTargetingMode : Bool
  log : List String
  gameOver : Bool
  winner : Option Faction
  mapImage : Option String
  startScreenImage : Option String
deriving DecidableEq, Repr

/-! Constants from src/unnamed/part_000 (constants.ts). -/

def INITIAL_GOLD : Int := 800
def MAX_FORTIFICATION : Int := 3
def FORTIFY_COST : Int := 150
def WINTER_START_DAY : Nat := 300
def AUTUMN_START_DAY : Nat := 240
def WINTER_DURATION : Nat := 65
def MOVEMENT_SPEED : Int := 4
def TRAINING_SPEED : Int := 5
def DAILY_TRADE_INCOME : Int := 2

/-- One entry of the UNIT_COST table. -/
structure UnitCost where
  gold : Int
  manpower : Int
deriving DecidableEq, Repr

/-- UNIT_COST table from constants.ts. -/
structure UnitCostTable where
  ARMY : UnitCost
  FLEET : UnitCost
deriving DecidableEq, Repr

def UNIT_COST : UnitCostTable :=
  { ARMY := { gold := 100, manpower := 200 }
    FLEET := { gold := 200, manpower := 100 } }

/-- UNIT_STRENGTH table from constants.ts. -/
structure UnitStrengthTable where
  ARMY : ℚ
  FLEET : ℚ
deriving DecidableEq, Repr

def UNIT_STRENGTH : UnitStrengthTable := { ARMY := 100, FLEET := 100 }

/-- The defaults supplied by `createNode` in constants.ts; every initial node
is this record overridden with the fields the corresponding `createNode` call
passes (`income: 50, manpowerGrowth: 2, localManpower: 200, maxManpower: 1000,
fortificationLevel: 0, ...data`). -/
def nodeDefaults : GameNode :=
  { id := "", name := "", type := .CITY, x := 0, y := 0, owner := .NEUTRAL
    income := 50, manpowerGrowth := 2, localManpower := 200, maxManpower := 1000
    connections := [], fortificationLevel := 0 }

/-- INITIAL_NODES from constants.ts, in object-literal order. -/
def INITIAL_NODES : List (String × GameNode) :=
  [ ("rome", { nodeDefaults with
      id := "rome", name := "Roma", type := .PORT
      x := 55, y := 35, owner := .ROME, income := 200, manpowerGrowth := 10
      localManpower := 800, maxManpower := 2000
      connections := ["capua", "genoa", "tyrrhenian_sea"], fortificationLevel := 1 }),
    ("capua", { nodeDefaults with
      id := "capua", name := "Capua", type := .CITY
      x := 60, y := 40, owner := .ROME, income := 100, manpowerGrowth := 5
      localManpower := 400, connections := ["rome", "tarentum"] }),
    ("tarentum", { nodeDefaults with
      id := "tarentum", name := "Tarentum", type := .PORT
      x := 65, y := 45, owner := .ROME, income := 80, manpowerGrowth := 5
      localManpower := 400, connections := ["capua", "ionian_sea"] }),
    ("genoa", { nodeDefaults with
      id := "genoa", name := "Genua", type := .CITY
      x := 48, y := 25, owner := .ROME, income := 50, manpowerGrowth := 3
      localManpower := 300, connections := ["rome", "massilia", "cisalpine_gaul"] }),
    ("cisalpine_gaul", { nodeDefaults with
      id := "cisalpine_gaul", name := "Gallia Cis.", type := .CITY
      x := 52, y := 18, owner := .NEUTRAL, income := 40
      manpowerGrowth := 8, localManpower := 500, connections := ["genoa"] }),
    ("syracuse", { nodeDefaults with
      id := "syracuse", name := "Syracusae", type := .PORT
      x := 60, y := 60, owner := .NEUTRAL, income := 150, manpowerGrowth := 5
      localManpower := 500
      connections := ["tyrrhenian_sea", "ionian_sea", "sicilian_strait"] }),
    ("sardinia", { nodeDefaults with
      id := "sardinia", name := "Sardinia", type := .PORT
      x := 40, y := 50, owner := .NEUTRAL, income := 50, manpowerGrowth := 2
      localManpower := 200, connections := ["tyrrhenian_sea", "western_med"] }),
    ("carthage", { nodeDefaults with
      id := "carthage", name := "Carthago", type := .PORT
      x := 50, y := 70, owner := .CARTHAGE, income := 250, manpowerGrowth := 8
      localManpower := 800, maxManpower := 2000
      connections := ["utica", "sicilian_strait", "western_med"], fortificationLevel := 1 }),
    ("utica", { nodeDefaults with
      id := "utica", name := "Utica", type := .CITY
      x := 45, y := 72, owner := .CARTHAGE, income := 100, manpowerGrowth := 5
      localManpower := 400, connections := ["carthage", "cirta"] }),
    ("cirta", { nodeDefaults with
      id := "cirta", name := "Cirta", type := .CITY
      x := 35, y := 75, owner := .NEUTRAL, income := 60, manpowerGrowth := 4
      localManpower := 300, connections := ["utica", "mauretania"] }),
    ("mauretania", { nodeDefaults with
      id := "mauretania", name := "Mauretania", type := .CITY
      x := 20, y := 72, owner := .NEUTRAL, income := 40, manpowerGrowth := 6
      localManpower := 400, connections := ["cirta", "gades"] }),
    ("nova_carthago", { nodeDefaults with
      id := "nova_carthago", name := "Nova Carthago", type := .PORT
      x := 20, y := 60, owner := .CARTHAGE, income := 180, manpowerGrowth := 6
      localManpower := 500, connections := ["saguntum", "western_med", "gades"] }),
    ("saguntum", { nodeDefaults with
      id := "saguntum", name := "Saguntum", type := .PORT
      x := 22, y := 50, owner := .NEUTRAL, income := 100, manpowerGrowth := 4
      localManpower := 300, connections := ["nova_carthago", "massilia", "western_med"] }),
    ("gades", { nodeDefaults with
      id := "gades", name := "Gades", type := .PORT
      x := 10, y := 65, owner := .NEUTRAL, income := 80, manpowerGrowth := 3
      localManpower := 300, connections := ["nova_carthago", "mauretania"] }),
    ("massilia", { nodeDefaults with
      id := "massilia", name := "Massilia", type := .PORT
      x := 35, y := 30, owner := .NEUTRAL, income := 120, manpowerGrowth := 4
      localManpower := 400, connections := ["genoa", "saguntum", "western_med"] }),
    ("tyrrhenian_sea", { nodeDefaults with
      id := "tyrrhenian_sea", name := "Tyrrhenian Sea", type := .SEA
      x := 50, y := 45, owner := .NEUTRAL, income := 0
      manpowerGrowth := 0, localManpower := 0
      connections := ["rome", "syracuse", "sardinia"] }),
    ("western_med", { nodeDefaults with
      id := "western_med", name := "Western Med", type := .SEA
      x := 30, y := 55, owner := .NEUTRAL, income := 0
      manpowerGrowth := 0, localManpower := 0
      connections := ["massilia", "saguntum", "nova_carthago", "sardinia", "carthage"] }),
    ("ionian_sea", { nodeDefaults with
      id := "ionian_sea", name := "Ionian Sea", type := .SEA
      x := 75, y := 55, owner := .NEUTRAL, income := 0
      manpowerGrowth := 0, localManpower := 0
      connections := ["tarentum", "syracuse"] }),
    ("sicilian_strait", { nodeDefaults with
      id := "sicilian_strait", name := "Sicilian Strait", type := .SEA
      x := 55, y := 65, owner := .NEUTRAL, income := 0
      manpowerGrowth := 0, localManpower := 0
      connections := ["carthage", "syracuse"] }) ]

/-- The initial `gameState` of the `App` component (MapNode.tsx). -/
def initialState : GameState :=
  { nodes := INITIAL_NODES
    units := []
    playerFaction := .ROME
    resources :=
      { gold := { rome := INITIAL_GOLD, carthage := INITIAL_GOLD, neutral := 0, spectator := 0 }
        totalManpower := { rome := 0, carthage := 0, neutral := 0, spectator := 0 } }
    day := 1
    isWinter := false
    gameSpeed := 1
    selectedNodeId := none
    isTargetingMode := false
    log := ["Welcome, General. The Punic Wars begin."]
    gameOver := false
    winner := none
    mapImage := none
    startScreenImage := none }

/-! Association-list access, modelling JS object key access on `state.nodes`. -/

/-- `nodes[id]`, returning `none` for a missing key. -/
def nodesGet (nodes : List (String × GameNode)) (id : String) : Option GameNode :=
  match nodes with
  | [] => none
  | (k, n) :: rest => if k = id then some n else nodesGet rest id

/-- Total variant of `nodes[id]`; the default is never reached on well-formed
states (JS would throw there). -/
def nodeOf (nodes : List (String × GameNode)) (id : String) : GameNode :=
  (nodesGet nodes id).getD nodeDefaults

/-- `nodes[id] = n`: replace the entry of an existing key, keeping object order. -/
def setNode (nodes : List (String × GameNode)) (id : String) (n : GameNode) :
    List (String × GameNode) :=
  match nodes with
  | [] => []
  | (k, m) :: rest => if k = id then (k, n) :: rest else (k, m) :: setNode rest id n

/-- String rendering of a faction, as produced by JS template interpolation. -/
def factionName : Faction → String
  | .ROME => "ROME"
  | .CARTHAGE => "CARTHAGE"
  | .NEUTRAL => "NEUTRAL"
  | .SPECTATOR => "SPECTATOR"

/-- The stream of `Math.random()` results, each in `[0,1)`. -/
abbrev Rand := List ℚ

/-- One call of `Math.random()`: pop the next draw (0 once exhausted). -/
def draw (r : Rand) : ℚ × Rand := (r.headD 0, r.tail)

/-! ## Pathfinding (BFS) — `findPath` in MapNode.tsx. -/

/-- The validity check of one edge inside `findPath`'s neighbour loop: an edge
from a non-Sea node into a Sea node is traversable only when the moving
faction has a Fleet located in that Sea node; every other edge is
traversable. -/
def canTraverse (s : GameState) (faction : Faction) (fromId toId : String) : Bool :=
  let node := nodeOf s.nodes fromId
  let neighbor := nodeOf s.nodes toId
  if node.type ≠ NodeType.SEA ∧ neighbor.type = NodeType.SEA then
    s.units.any fun u =>
      decide (u.locationId = toId ∧ u.owner = faction ∧ u.type = UnitType.FLEET)
  else true

/-- One pass over `node.connections` inside the BFS `while` loop: skip visited
neighbours, and enqueue (marking visited) each traversable unvisited one. -/
def enqueueNeighbors (s : GameState) (faction : Faction) (id : String)
    (path : List String) (conns : List String)
    (acc : List (String × List String) × List String) :
    List (String × List String) × List String :=
  conns.foldl
    (fun acc neighborId =>
      if neighborId ∈ acc.2 then acc
      else if canTraverse s faction id neighborId then
        (acc.1 ++ [(neighborId, path ++ [neighborId])], neighborId :: acc.2)
      else acc)
    acc

/-- The BFS `while (queue.length > 0)` loop of `findPath`.  The JS loop
terminates because every node is enqueued at most once; `fuel` is any upper
bound on the number of iterations (`pathFuel` below always suffices). -/
def bfsLoop (s : GameState) (faction : Faction) (endId : String) :
    Nat → List (String × List String) → List String → Option (List String)
  | 0, _, _ => none
  | _ + 1, [], _ => none
  | fuel + 1, (id, path) :: rest, visited =>
    if id = endId then some path
    else
      let node := nodeOf s.nodes id
      let acc := enqueueNeighbors s faction id path node.connections (rest, visited)
      bfsLoop s faction endId fuel acc.1 acc.2

/-- Iteration bound for `bfsLoop`: the queue receives the start entry plus at
most one entry per adjacency-list element, so this dominates the number of
iterations of the JS loop. -/
def pathFuel (s : GameState) : Nat :=
  (s.nodes.map fun p => p.2.connections.length).sum + s.nodes.length + 1

/-- `findPath(startId, endId, faction, currentState)` from MapNode.tsx:
`[]` when start equals end, the BFS path (exclusive of start, inclusive of
end) when one exists, `none` (JS `null`) otherwise. -/
def findPath (startId endId : String) (faction : Faction) (s : GameState) :
    Option (List String) :=
  if startId = endId then some []
  else bfsLoop s faction endId (pathFuel s) [(startId, [])] [startId]

/-! ## Combat resolution — `handleCombat` in MapNode.tsx. -/

/-- The effective strength modifier computed by `handleCombat` for one unit on
the node `loc` where the battle happens: base 1; replaced by 1.5 for a Fleet
when `loc` is a Sea node; plus `0.5 * fortificationLevel` when the unit's
faction owns `loc` and the level is positive. -/
def combatMod (loc : GameNode) (u : Unit) : ℚ :=
  let base : ℚ := if loc.type = NodeType.SEA ∧ u.type = UnitType.FLEET then 3 / 2 else 1
  if loc.owner = u.owner ∧ 0 < loc.fortificationLevel then
    base + (loc.fortificationLevel : ℚ) * (1 / 2)
  else base

/-- Result record of `handleCombat`; `winner` carries the already-updated
strength, exactly as the JS code mutates the winner object in place. -/
structure CombatResult where
  winner : Unit
  loser : Unit
  flavor : String
deriving DecidableEq, Repr

/-- Fallback battle text of `generateBattleReport` (geminiService.ts) when no
API client is available; the async API path is outside the simulation core. -/
def generateBattleReport (location : String) (winner _loser : Faction) : String :=
  "Battle at " ++ location ++ ": " ++ factionName winner ++ " victorious."

/-- `handleCombat(u1, u2, nodes)` with the two `Math.random()` draws made
explicit: each side rolls `draw * strength * modifier`; `u1` wins on `>=`
(ties favour `u1`); the winner's strength becomes
`max(10, strength - 20 / winnerMod)`. -/
def handleCombat (u1 u2 : Unit) (nodes : List (String × GameNode)) (r1 r2 : ℚ) :
    CombatResult :=
  let loc := nodeOf nodes u1.locationId
  let u1Mod := combatMod loc u1
  let u2Mod := combatMod loc u2
  let u1Roll := r1 * u1.strength * u1Mod
  let u2Roll := r2 * u2.strength * u2Mod
  if u2Roll ≤ u1Roll then
    let winner := { u1 with strength := max 10 (u1.strength - 20 / u1Mod) }
    let locName := match nodesGet nodes winner.locationId with
      | some n => n.name
      | none => "Open Sea"
    { winner := winner, loser := u2
      flavor := generateBattleReport locName winner.owner u2.owner }
  else
    let winner := { u2 with strength := max 10 (u2.strength - 20 / u2Mod) }
    let locName := match nodesGet nodes winner.locationId with
      | some n => n.name
      | none => "Open Sea"
    { winner := winner, loser := u1
      flavor := generateBattleReport locName winner.owner u1.owner }

/-! ## Opponent policy — `processAI` in MapNode.tsx. -/

/-- The recruit/move intents collected by `processAI`. -/
structure AIIntents where
  recruitments : List (String × UnitType)
  moves : List (String × String)
deriving DecidableEq, Repr

/-- `aiFactions`: both belligerents in spectator mode, else the player's
opponent. -/
def aiFactionsOf (s : GameState) : List Faction :=
  if s.playerFaction = Faction.SPECTATOR then [Faction.ROME, Faction.CARTHAGE]
  else [if s.playerFaction = Faction.ROME then Faction.CARTHAGE else Faction.ROME]

/-- The neighbour filter of the AI move loop: fleets go to Sea or Port;
land units enter a Sea node only when a friendly fleet sits there. -/
def aiLegalNeighbor (s : GameState) (aiFaction : Faction) (u : Unit) (nid : String) : Bool :=
  let target := nodeOf s.nodes nid
  if u.type = UnitType.FLEET then
    decide (target.type = NodeType.SEA ∨ target.type = NodeType.PORT)
  else if target.type = NodeType.SEA then
    s.units.any fun v =>
      decide (v.locationId = nid ∧ v.owner = aiFaction ∧ v.type = UnitType.FLEET)
  else true

/-- The movement-friction decision `Math.random() > 0.6` guarding
`moves.push` in `processAI`: the move intent is issued only when the draw
exceeds 0.6. -/
def aiMoveIssued (r : ℚ) : Bool := decide (3 / 5 < r)

/-- The body of the AI move loop for one idle unit: pick an enemy-owned legal
neighbour, else a neutral one, else a uniformly drawn one, then apply the
friction draw. -/
def aiUnitMove (s : GameState) (aiFaction : Faction) (acc : List (String × String) × Rand)
    (u : Unit) : List (String × String) × Rand :=
  let currentNode := nodeOf s.nodes u.locationId
  let validNeighbors := currentNode.connections.filter (aiLegalNeighbor s aiFaction u)
  match validNeighbors with
  | [] => acc
  | _ :: _ =>
    let enemy := validNeighbors.find? fun nid =>
      decide ((nodeOf s.nodes nid).owner ≠ aiFaction ∧ (nodeOf s.nodes nid).owner ≠ Faction.NEUTRAL)
    let neutral := validNeighbors.find? fun nid => decide ((nodeOf s.nodes nid).owner = Faction.NEUTRAL)
    let picked : String × Rand :=
      match enemy with
      | some t => (t, acc.2)
      | none =>
        match neutral with
        | some t => (t, acc.2)
        | none =>
          let (ri, r') := draw acc.2
          (validNeighbors.getD (Int.toNat ⌊ri * (validNeighbors.length : ℚ)⌋) "", r')
    let (rm, rand2) := draw picked.2
    if aiMoveIssued rm then (acc.1 ++ [(u.id, picked.1)], rand2) else (acc.1, rand2)

/-- One faction's pass of `processAI`: at most one recruitment intent
(a Fleet with the `> 0.7` draw at a Port, else a land unit away from Sea
nodes), then move intents for each idle unit. -/
def aiFactionIntents (s : GameState) (acc : AIIntents × Rand) (f : Faction) : AIIntents × Rand :=
  let aiGold := s.resources.gold.get f
  let ownedNodes := (s.nodes.map Prod.snd).filter fun n => decide (n.owner = f)
  let unitCost := UNIT_COST.ARMY
  let acc1 :=
    if aiGold > unitCost.gold ∧ s.isWinter = false then
      let validNodes := ownedNodes.filter fun n => decide (n.localManpower ≥ unitCost.manpower)
      let targetNode := validNodes.find? fun n =>
        decide ((s.units.filter fun u => decide (u.locationId = n.id)).length < 2)
      match targetNode with
      | some n =>
        if n.type = NodeType.PORT then
          let (r1, r') := draw acc.2
          if (7 : ℚ) / 10 < r1 then
            ({ acc.1 with recruitments := acc.1.recruitments ++ [(n.id, UnitType.FLEET)] }, r')
          else
            ({ acc.1 with recruitments := acc.1.recruitments ++ [(n.id, UnitType.MERCENARY)] }, r')
        else if n.type ≠ NodeType.SEA then
          ({ acc.1 with recruitments := acc.1.recruitments ++ [(n.id, UnitType.MERCENARY)] }, acc.2)
        else acc
      | none => acc
    else acc
  if s.isWinter = false then
    let aiUnits := s.units.filter fun u =>
      decide (u.owner = f ∧ u.isMoving = false ∧ u.isTraining = false ∧ u.destinationId = none)
    let mv := aiUnits.foldl (aiUnitMove s f) (acc1.1.moves, acc1.2)
    ({ acc1.1 with moves := mv.1 }, mv.2)
  else acc1

/-- `processAI(currentState)`: collect intents for every AI faction. -/
def processAI (s : GameState) (r : Rand) : AIIntents × Rand :=
  (aiFactionsOf s).foldl (aiFactionIntents s) (⟨[], []⟩, r)

/-! ## World tick engine — `updateGame` in MapNode.tsx. -/

/-- The season computation of `updateGame`:
`dayOfYear >= WINTER_START_DAY || dayOfYear < (WINTER_START_DAY + WINTER_DURATION) % 365 && dayOfYear < WINTER_DURATION`
(JS `&&` binds tighter than `||`). -/
def computeIsWinter (day : Nat) : Bool :=
  let dayOfYear := day % 365
  decide (dayOfYear ≥ WINTER_START_DAY) ||
    (decide (dayOfYear < (WINTER_START_DAY + WINTER_DURATION) % 365) &&
      decide (dayOfYear < WINTER_DURATION))

/-- Step 1 of the tick: advance the day, recompute the winter flag, emit the
season-transition events. -/
def seasonPhase (s : GameState) : GameState × List String :=
  let dayNew := s.day + 1
  let wasWinter := s.isWinter
  let isWinterNew := computeIsWinter dayNew
  let events :=
    if wasWinter = true ∧ isWinterNew = false then
      ["Spring has arrived. The passes are clear."]
    else if wasWinter = false ∧ isWinterNew = true then
      ["Winter has fallen. Armies retreat to winter quarters."]
    else []
  ({ s with day := dayNew, isWinter := isWinterNew }, events)

/-- Step 2: daily manpower growth of one non-neutral node, capped at its max. -/
def regenNode (n : GameNode) : GameNode :=
  if n.owner ≠ Faction.NEUTRAL ∧ n.localManpower < n.maxManpower then
    { n with localManpower := min n.maxManpower (n.localManpower + n.manpowerGrowth) }
  else n

/-- Step 2 over the whole node table. -/
def regenPhase (s : GameState) : GameState :=
  { s with nodes := s.nodes.map fun p => (p.1, regenNode p.2) }

/-- Number of Sea nodes owned by a faction (global trade). -/
def seaZoneCount (s : GameState) (f : Faction) : Nat :=
  ((s.nodes.map Prod.snd).filter fun n =>
    decide (n.owner = f ∧ n.type = NodeType.SEA)).length

/-- Daily trade gold for Rome and Carthage. -/
def tradePhase (s : GameState) : GameState :=
  let romeTrade := (seaZoneCount s Faction.ROME : Int) * DAILY_TRADE_INCOME
  let carthageTrade := (seaZoneCount s Faction.CARTHAGE : Int) * DAILY_TRADE_INCOME
  let g1 := s.resources.gold.set Faction.ROME (s.resources.gold.get Faction.ROME + romeTrade)
  let g2 := g1.set Faction.CARTHAGE (g1.get Faction.CARTHAGE + carthageTrade)
  { s with resources := { s.resources with gold := g2 } }

/-- `reduce((sum, n) => sum + n.income, 0)` over a faction's nodes. -/
def incomeSum (s : GameState) (f : Faction) : Int :=
  (((s.nodes.map Prod.snd).filter fun n => decide (n.owner = f)).foldl
    (fun acc n => acc + n.income) 0)

/-- Autumn tax collection (`dayOfYear === AUTUMN_START_DAY`). -/
def autumnPhase (s : GameState) : GameState × List String :=
  if s.day % 365 = AUTUMN_START_DAY then
    let g1 := s.resources.gold.set Faction.ROME
      (s.resources.gold.get Faction.ROME + incomeSum s Faction.ROME)
    let g2 := g1.set Faction.CARTHAGE
      (g1.get Faction.CARTHAGE + incomeSum s Faction.CARTHAGE)
    ({ s with resources := { s.resources with gold := g2 } },
      ["Taxes collected and Harvest gathered."])
  else (s, [])

/-- Step 3 of the tick for one unit: training progress, forced winter retreat
(one direct hop home), or movement progress with arrival hand-off to the next
queued path element. -/
def unitAdvance (isWinter : Bool) (nodes : List (String × GameNode)) (u : Unit) : Unit :=
  if u.isTraining then
    if u.trainingProgress ≥ 100 then { u with isTraining := false, trainingProgress := 100 }
    else { u with trainingProgress := u.trainingProgress + TRAINING_SPEED }
  else if isWinter ∧ u.locationId ≠ u.originId ∧ u.isMoving = false ∧
      u.type ≠ UnitType.FLEET ∧ u.originId ∈ (nodeOf nodes u.locationId).connections then
    { u with destinationId := some u.originId, path := [], isMoving := true, progress := 0 }
  else
    match u.destinationId with
    | some dest =>
      if u.isMoving then
        let newProgress := u.progress + MOVEMENT_SPEED
        if newProgress ≥ 100 then
          match u.path with
          | [] =>
            { u with
              progress := 0, isMoving := false, locationId := dest
              destinationId := none, path := [] }
          | next :: restPath =>
            { u with
              progress := 0, isMoving := true, locationId := dest
              destinationId := some next, path := restPath }
        else { u with progress := newProgress }
      else u
    | none => u

/-- The mutable context threaded through the arrival/combat loop of the tick. -/
structure TickCtx where
  st : GameState
  dead : List String
  events : List String
  rand : Rand
deriving DecidableEq, Repr

/-- `units[findIndex(u => u.id === uid)].strength = str` (no-op when absent). -/
def setStrengthFirst : List Unit → String → ℚ → List Unit
  | [], _, _ => []
  | u :: rest, uid, str =>
    if u.id = uid then { u with strength := str } :: rest
    else u :: setStrengthFirst rest uid str

/-- The enemy filter of the arrival loop: co-located, opposing, alive,
and not in training. -/
def enemiesAt (units : List Unit) (dead : List String) (u : Unit) : List Unit :=
  units.filter fun v =>
    decide (v.locationId = u.locationId ∧ v.owner ≠ u.owner ∧ v.id ∉ dead ∧ v.isTraining = false)

/-- The conquest branch of the arrival loop: only a land unit on a non-Sea
node or a fleet on a Sea node flips ownership (resetting fortification), and
capturing the opposing capital sets game over with that conqueror as winner. -/
def applyConquest (st : GameState) (u : Unit) (loc : GameNode) : GameState × List String :=
  let isLandConquest := loc.type ≠ NodeType.SEA ∧ u.type ≠ UnitType.FLEET
  let isSeaConquest := loc.type = NodeType.SEA ∧ u.type = UnitType.FLEET
  if isLandConquest ∨ isSeaConquest then
    let st1 := { st with
      nodes := setNode st.nodes loc.id { loc with owner := u.owner, fortificationLevel := 0 } }
    let ev := factionName u.owner ++ " has seized control of " ++ loc.name ++ "!"
    let st2 :=
      if loc.id = "rome" ∧ u.owner = Faction.CARTHAGE then
        { st1 with gameOver := true, winner := some Faction.CARTHAGE }
      else st1
    let st3 :=
      if loc.id = "carthage" ∧ u.owner = Faction.ROME then
        { st2 with gameOver := true, winner := some Faction.ROME }
      else st2
    (st3, [ev])
  else (st, [])

/-- Iteration `i` of the arrival loop: a settled, living, non-training unit
either fights the first living non-training enemy on its node (loser marked
dead, winner's strength written back) or conquers the node it stands on. -/
def arrivalStep (c : TickCtx) (i : Nat) : TickCtx :=
  match c.st.units.get? i with
  | none => c
  | some unit =>
    if unit.id ∈ c.dead then c
    else if unit.isMoving ∨ unit.isTraining then c
    else
      let loc := nodeOf c.st.nodes unit.locationId
      match enemiesAt c.st.units c.dead unit with
      | [] =>
        if loc.owner ≠ unit.owner then
          let res := applyConquest c.st unit loc
          { c with st := res.1, events := c.events ++ res.2 }
        else c
      | enemy :: _ =>
        let (r1, rand1) := draw c.rand
        let (r2, rand2) := draw rand1
        let res := handleCombat unit enemy c.st.nodes r1 r2
        let showEvent := c.st.playerFaction = Faction.SPECTATOR ∨
          res.winner.owner = c.st.playerFaction ∨ res.loser.owner = c.st.playerFaction
        { st := { c.st with units := setStrengthFirst c.st.units res.winner.id res.winner.strength }
          dead := c.dead ++ [res.loser.id]
          events := if showEvent then c.events ++ [res.flavor] else c.events
          rand := rand2 }

/-- Step 4 of the tick: run the arrival loop over every unit index, then purge
the units marked dead. -/
def arrivalsPhase (c : TickCtx) : TickCtx :=
  let d := (List.range c.st.units.length).foldl arrivalStep c
  { d with st := { d.st with units := d.st.units.filter fun u => !decide (u.id ∈ d.dead) } }

/-- The unit record pushed by both the AI recruitment and `handleRecruit`
(strength `UNIT_STRENGTH.ARMY` in both, training from 0). -/
def mkRecruitUnit (id : String) (faction : Faction) (t : UnitType) (nodeId : String) : Unit :=
  { id := id, owner := faction, type := t
    strength := UNIT_STRENGTH.ARMY, maxStrength := UNIT_STRENGTH.ARMY
    locationId := nodeId, destinationId := none, path := [], originId := nodeId
    progress := 0, isMoving := false, isTraining := true, trainingProgress := 0 }

/-- Apply one AI recruitment intent: the owner of the node pays (gold and local
manpower are both re-checked against the current state before deducting). -/
def applyAIRecruit (acc : GameState × Nat) (rec : String × UnitType) : GameState × Nat :=
  let s := acc.1
  let node := nodeOf s.nodes rec.1
  let faction := node.owner
  let cost := if rec.2 = UnitType.FLEET then UNIT_COST.FLEET else UNIT_COST.ARMY
  if s.resources.gold.get faction ≥ cost.gold ∧ node.localManpower ≥ cost.manpower then
    let s1 := { s with
      resources := { s.resources with
        gold := s.resources.gold.set faction (s.resources.gold.get faction - cost.gold) }
      nodes := setNode s.nodes rec.1 { node with localManpower := node.localManpower - cost.manpower } }
    ({ s1 with units := s1.units ++ [mkRecruitUnit ("ai-" ++ Nat.repr acc.2) faction rec.2 rec.1] },
      acc.2 + 1)
  else acc

/-- Apply one AI move intent to the first unit with the given id. -/
def setUnitMoveFirst : List Unit → String → String → List Unit
  | [], _, _ => []
  | u :: rest, uid, target =>
    if u.id = uid then { u with destinationId := some target, isMoving := true } :: rest
    else u :: setUnitMoveFirst rest uid target

/-- Step 5 of the tick: every 20 days, while the game is not over, collect and
apply the AI intents (`uid` numbers the fresh unit ids standing in for
`uuidv4()`). -/
def aiPhase (s : GameState) (r : Rand) (uid : Nat) : GameState :=
  if s.day % 20 = 0 ∧ s.gameOver = false then
    let intents := (processAI s r).1
    let s1 := (intents.recruitments.foldl applyAIRecruit (s, uid)).1
    intents.moves.foldl (fun st mv => { st with units := setUnitMoveFirst st.units mv.1 mv.2 }) s1
  else s

/-- One invocation of `updateGame` (the tick): a paused or finished game is
returned untouched; otherwise the phases run in source order and the events
are appended to the log. -/
def updateGame (rand : Rand) (uid : Nat) (s : GameState) : GameState :=
  if s.gameSpeed = 0 ∨ s.gameOver then s
  else
    let p1 := seasonPhase s
    let s2 := regenPhase p1.1
    let s3 := tradePhase s2
    let p4 := autumnPhase s3
    let s5 := { p4.1 with units := p4.1.units.map (unitAdvance p4.1.isWinter p4.1.nodes) }
    let c := arrivalsPhase { st := s5, dead := [], events := p1.2 ++ p4.2, rand := rand }
    let s7 := aiPhase c.st c.rand uid
    if c.events.length > 0 then { s7 with log := s7.log ++ c.events } else s7

/-! ## Command handlers (player interaction) from MapNode.tsx. -/

/-- `handleRecruit(type)`: requires a selected node and a running game, then
checks gold and local manpower only (no node-type and no ownership check);
on success it deducts both costs and pushes a new unit in training.
`newId` stands in for `uuidv4()`. -/
def handleRecruit (newId : String) (t : UnitType) (s : GameState) : GameState :=
  match s.selectedNodeId with
  | none => s
  | some nid =>
    if s.gameOver then s
    else
      let cost := if t = UnitType.FLEET then UNIT_COST.FLEET else UNIT_COST.ARMY
      let playerGold := s.resources.gold.get s.playerFaction
      match nodesGet s.nodes nid with
      | none => s
      | some node =>
        if playerGold ≥ cost.gold ∧ node.localManpower ≥ cost.manpower then
          { s with
            nodes := setNode s.nodes node.id
              { node with localManpower := node.localManpower - cost.manpower }
            resources := { s.resources with
              gold := s.resources.gold.set s.playerFaction (playerGold - cost.gold) }
            units := s.units ++ [mkRecruitUnit newId s.playerFaction t node.id] }
        else s

/-- `handleFortify()`: requires a selected node; checks only gold and the
fortification cap (no ownership check and no game-over check); on success it
deducts `FORTIFY_COST` and raises the level by 1. -/
def handleFortify (s : GameState) : GameState :=
  match s.selectedNodeId with
  | none => s
  | some nid =>
    match nodesGet s.nodes nid with
    | none => s
    | some node =>
      let playerGold := s.resources.gold.get s.playerFaction
      if playerGold ≥ FORTIFY_COST ∧ node.fortificationLevel < MAX_FORTIFICATION then
        { s with
          nodes := setNode s.nodes nid
            { node with fortificationLevel := node.fortificationLevel + 1 }
          resources := { s.resources with
            gold := s.resources.gold.set s.playerFaction (playerGold - FORTIFY_COST) } }
      else s

/-- `handleNodeClick(nodeId)`: in targeting mode, route all idle own units at
the selected node along `findPath`; otherwise toggle the selection. -/
def handleNodeClick (nodeId : String) (s : GameState) : GameState :=
  if s.gameOver ∨ s.playerFaction = Faction.SPECTATOR then s
  else
    match s.selectedNodeId with
    | some startNodeId =>
      if s.isTargetingMode then
        match findPath startNodeId nodeId s.playerFaction s with
        | some (firstStep :: restPath) =>
          let readyUnits := s.units.filter fun u =>
            decide (u.locationId = startNodeId ∧ u.owner = s.playerFaction ∧
              u.isMoving = false ∧ u.isTraining = false)
          if readyUnits.length > 0 then
            let newUnits := s.units.map fun u =>
              if readyUnits.any fun r => decide (r.id = u.id) then
                { u with destinationId := some firstStep, path := restPath, isMoving := true }
              else u
            { s with
              units := newUnits, selectedNodeId := none, isTargetingMode := false
              log := s.log ++ ["Moving forces to " ++ (nodeOf s.nodes nodeId).name ++ "."] }
          else { s with isTargetingMode := false }
        | _ => { s with isTargetingMode := false, log := s.log ++ ["Invalid route."] }
      else
        { s with
          selectedNodeId := if s.selectedNodeId = some nodeId then none else some nodeId
          isTargetingMode := false }
    | none =>
      { s with
        selectedNodeId := if s.selectedNodeId = some nodeId then none else some nodeId
        isTargetingMode := false }

/-- The front-line gate of `handleRally`: does the unit's node touch a node
owned by neither the player nor Neutral? -/
def hasEnemyNeighbor (s : GameState) (faction : Faction) (node : GameNode) : Bool :=
  node.connections.any fun connId =>
    decide ((nodeOf s.nodes connId).owner ≠ faction ∧ (nodeOf s.nodes connId).owner ≠ Faction.NEUTRAL)

/-- `handleRally()`: every idle, non-fleet own unit away from the selected
node whose node has no hostile neighbour is routed toward it. -/
def handleRally (s : GameState) : GameState :=
  match s.selectedNodeId with
  | none => s
  | some targetId =>
    let faction := s.playerFaction
    let newUnits := s.units.map fun u =>
      if u.owner ≠ faction ∨ u.isMoving ∨ u.isTraining ∨ u.locationId = targetId then u
      else if u.type = UnitType.FLEET then u
      else if hasEnemyNeighbor s faction (nodeOf s.nodes u.locationId) then u
      else
        match findPath u.locationId targetId faction s with
        | some (firstStep :: restPath) =>
          { u with destinationId := some firstStep, path := restPath, isMoving := true }
        | _ => u
    { s with units := newUnits, log := s.log ++ ["Rallying reserves!"] }

/-- `handleHalt()`: stop every moving own unit whose immediate destination or
queued path contains the selected node. -/
def handleHalt (s : GameState) : GameState :=
  match s.selectedNodeId with
  | none => s
  | some targetId =>
    let newUnits := s.units.map fun u =>
      if u.owner ≠ s.playerFaction ∨ u.isMoving = false then u
      else if u.destinationId = some targetId ∨ targetId ∈ u.path then
        { u with isMoving := false, destinationId := none, path := [], progress := 0 }
      else u
    { s with units := newUnits, log := s.log ++ ["Incoming columns halted."] }

/-- `enterMoveMode()`: refused (log only) in winter, else arm targeting mode. -/
def enterMoveMode (s : GameState) : GameState :=
  if s.isWinter then { s with log := s.log ++ ["Cannot launch campaigns in Winter!"] }
  else { s with isTargetingMode := true }

/-- `onPauseToggle` of the UI overlay. -/
def pauseToggle (s : GameState) : GameState :=
  { s with gameSpeed := if s.gameSpeed = 0 then 1 else 0 }

/-- `startGame(faction)`. -/
def startGame (f : Faction) (s : GameState) : GameState :=
  { s with
    playerFaction := f
    log := if f = Faction.SPECTATOR then ["Observing the conflict from the heavens."]
      else ["You have taken command of " ++ factionName f ++ ". Conquer the Mediterranean!"] }

/-! ## The recruit buttons of GameUI (geminiService.ts source file). -/

/-- Whether the recruit button for kind `t` is rendered and enabled in the
GameUI action bar: the bar itself requires a selected node owned by the
player, summer, and a non-spectator; the Army button additionally requires a
City or Port and the Army costs covered; the Fleet button requires a Port and
the Fleet costs covered. -/
def recruitClickable (s : GameState) (t : UnitType) : Bool :=
  match s.selectedNodeId with
  | none => false
  | some nid =>
    match nodesGet s.nodes nid with
    | none => false
    | some node =>
      let playerGold := s.resources.gold.get s.playerFaction
      decide (node.owner = s.playerFaction) && !s.isWinter &&
        decide (s.playerFaction ≠ Faction.SPECTATOR) &&
        (if t = UnitType.FLEET then
          decide (node.type = NodeType.PORT) &&
            decide (playerGold ≥ UNIT_COST.FLEET.gold) &&
            decide (node.localManpower ≥ UNIT_COST.FLEET.manpower)
        else
          (decide (node.type = NodeType.CITY) || decide (node.type = NodeType.PORT)) &&
            decide (playerGold ≥ UNIT_COST.ARMY.gold) &&
            decide (node.localManpower ≥ UNIT_COST.ARMY.manpower))

/-- The recruit command as reachable through the UI: `handleRecruit` fires
only when the corresponding GameUI button is rendered and enabled. -/
def uiRecruit (newId : String) (t : UnitType) (s : GameState) : GameState :=
  if recruitClickable s t then handleRecruit newId t s else s

/-! ## Command/event sequences over the running game. -/

/-- A player command event. -/
inductive Cmd where
  | recruit (newId : String) (t : UnitType)
  | fortify
  | nodeClick (id : String)
  | rally
  | halt
  | enterMove
  | pauseToggle
  | start (f : Faction)
deriving DecidableEq, Repr

/-- Apply one player command. -/
def applyCmd : Cmd → GameState → GameState
  | .recruit newId t => handleRecruit newId t
  | .fortify => handleFortify
  | .nodeClick id => handleNodeClick id
  | .rally => handleRally
  | .halt => handleHalt
  | .enterMove => enterMoveMode
  | .pauseToggle => pauseToggle
  | .start f => startGame f

/-- An external event: one engine tick (with its random draws and fresh-id
seed) or one player command. -/
inductive Ev where
  | tick (r : Rand) (uid : Nat)
  | cmd (c : Cmd)
deriving DecidableEq, Repr

/-- Apply one event. -/
def applyEv : Ev → GameState → GameState
  | .tick r uid => updateGame r uid
  | .cmd c => applyCmd c

/-- Run a whole sequence of ticks and commands. -/
def runEvents (s : GameState) : List Ev → GameState
  | [] => s
  | e :: rest => runEvents (applyEv e s) rest

/-! ## Frame lemmas: phases that do not touch the winter flag. -/

lemma applyConquest_fst_isWinter (st : GameState) (u : Unit) (loc : GameNode) :
    (applyConquest st u loc).1.isWinter = st.isWinter := by
  unfold applyConquest
  dsimp only
  split
  · split <;> split <;> rfl
  · rfl

lemma arrivalStep_st_isWinter (c : TickCtx) (i : Nat) :
    (arrivalStep c i).st.isWinter = c.st.isWinter := by
  unfold arrivalStep
  dsimp only
  split
  · rfl
  · split
    · rfl
    · split
      · rfl
      · split
        · split
          · simp [applyConquest_fst_isWinter]
          · rfl
        · rfl

lemma applyAIRecruit_fst_isWinter (acc : GameState × Nat) (rec : String × UnitType) :
    (applyAIRecruit acc rec).1.isWinter = acc.1.isWinter := by
  unfold applyAIRecruit
  dsimp only
  split <;> split <;> rfl

lemma foldl_arrivalStep_isWinter (l : List Nat) (c : TickCtx) :
    (l.foldl arrivalStep c).st.isWinter = c.st.isWinter := by
  induction l generalizing c with
  | nil => rfl
  | cons i rest ih => rw [List.foldl_cons, ih, arrivalStep_st_isWinter]

lemma arrivalsPhase_st_isWinter (c : TickCtx) :
    (arrivalsPhase c).st.isWinter = c.st.isWinter := by
  unfold arrivalsPhase
  dsimp only
  rw [foldl_arrivalStep_isWinter]

lemma foldl_applyAIRecruit_isWinter (l : List (String × UnitType)) (acc : GameState × Nat) :
    ((l.foldl applyAIRecruit acc).1).isWinter = acc.1.isWinter := by
  induction l generalizing acc with
  | nil => rfl
  | cons r rest ih => rw [List.foldl_cons, ih, applyAIRecruit_fst_isWinter]

lemma foldl_moves_isWinter (l : List (String × String)) (s : GameState) :
    (l.foldl (fun st mv => { st with units := setUnitMoveFirst st.units mv.1 mv.2 }) s).isWinter
      = s.isWinter := by
  induction l generalizing s with
  | nil => rfl
  | cons m rest ih => rw [List.foldl_cons, ih]

lemma aiPhase_isWinter (s : GameState) (r : Rand) (uid : Nat) :
    (aiPhase s r uid).isWinter = s.isWinter := by
  unfold aiPhase
  dsimp only
  split
  · rw [foldl_moves_isWinter, foldl_applyAIRecruit_isWinter]
  · rfl

lemma seasonPhase_fst_isWinter (s : GameState) :
    (seasonPhase s).1.isWinter = computeIsWinter (s.day + 1) := rfl

lemma regenPhase_isWinter (s : GameState) : (regenPhase s).isWinter = s.isWinter := rfl

lemma tradePhase_isWinter (s : GameState) : (tradePhase s).isWinter = s.isWinter := rfl

lemma autumnPhase_fst_isWinter (s : GameState) : (autumnPhase s).1.isWinter = s.isWinter := by
  unfold autumnPhase
  dsimp only
  split <;> rfl

/-- C1: with start day 300 and duration 65 the tick engine's winter flag is
active exactly for day-of-year (day mod 365) in 300..364 — the second
disjunct of the source expression compares against `(300+65) % 365 = 0` and
can never hold — so the year starts with no winter days. -/
theorem winter_calendar_c1 :
    (∀ (r : Rand) (uid : Nat) (s : GameState), s.gameSpeed ≠ 0 → s.gameOver = false →
      (updateGame r uid s).isWinter = computeIsWinter (s.day + 1)) ∧
    (∀ day : Nat, computeIsWinter day = true ↔
      (WINTER_START_DAY ≤ day % 365 ∧ day % 365 ≤ 364)) := by
  constructor
  · intro r uid s hspeed hgo
    unfold updateGame
    rw [if_neg (by simp [hspeed, hgo])]
    dsimp only
    split
    · show (aiPhase _ _ _).isWinter = _
      rw [aiPhase_isWinter, arrivalsPhase_st_isWinter]
      show (autumnPhase _).1.isWinter = _
      rw [autumnPhase_fst_isWinter, tradePhase_isWinter, regenPhase_isWinter,
        seasonPhase_fst_isWinter]
    · rw [aiPhase_isWinter, arrivalsPhase_st_isWinter]
      show (autumnPhase _).1.isWinter = _
      rw [autumnPhase_fst_isWinter, tradePhase_isWinter, regenPhase_isWinter,
        seasonPhase_fst_isWinter]
  · intro day
    unfold computeIsWinter WINTER_START_DAY WINTER_DURATION
    simp only [Bool.or_eq_true, Bool.and_eq_true, decide_eq_true_eq]
    omega



theorem winter_calendar_c1_witness :
    (updateGame [] 0 initialState).isWinter = computeIsWinter (initialState.day + 1) ∧
    (computeIsWinter 300 = true ↔ (WINTER_START_DAY ≤ 300 % 365 ∧ 300 % 365 ≤ 364)) :=
  ⟨winter_calendar_c1.1 [] 0 initialState (by decide) (by decide),
    winter_calendar_c1.2 300⟩


lemma nodesGet_mem {l : List (String × GameNode)} {k : String} {n : GameNode}
    (h : nodesGet l k = some n) : (k, n) ∈ l := by
  induction l with
  | nil => simp [nodesGet] at h
  | cons p rest ih =>
    obtain ⟨a, b⟩ := p
    rw [nodesGet] at h
    by_cases hk : a = k
    · subst hk
      rw [if_pos rfl] at h
      cases h
      exact List.Mem.head rest
    · rw [if_neg hk] at h
      exact List.Mem.tail _ (ih h)

lemma nodesGet_setNode_self {l : List (String × GameNode)} {k : String} {m n : GameNode}
    (h : nodesGet l k = some m) : nodesGet (setNode l k n) k = some n := by
  induction l with
  | nil => simp [nodesGet] at h
  | cons p rest ih =>
    rw [nodesGet] at h
    rw [setNode]
    by_cases hk : p.1 = k
    · rw [if_pos hk, nodesGet, if_pos hk]
    · rw [if_neg hk] at h
      rw [if_neg hk, nodesGet, if_neg hk]
      exact ih h

lemma nodesGet_setNode_of_ne {l : List (String × GameNode)} {k k' : String} {n : GameNode}
    (h : k' ≠ k) : nodesGet (setNode l k n) k' = nodesGet l k' := by
  induction l with
  | nil => rfl
  | cons p rest ih =>
    rw [setNode]
    by_cases hk : p.1 = k
    · rw [if_pos hk, nodesGet, nodesGet]
      have : ¬ p.1 = k' := by rw [hk]; exact fun hh => h hh.symm
      rw [if_neg (by rw [hk]; exact fun hh => h hh.symm), if_neg this]
    · rw [if_neg hk, nodesGet, nodesGet, ih]

lemma FactionMap.get_set_self (m : FactionMap α) (f : Faction) (v : α) :
    (m.set f v).get f = v := by
  cases f <;> rfl

lemma FactionMap.get_set_ne (m : FactionMap α) (f g : Faction) (v : α) (h : g ≠ f) :
    (m.set f v).get g = m.get g := by
  cases f <;> cases g <;> first | rfl | exact absurd rfl h

/-- C10 (implicit): the fortify handler performs no ownership and no game-over
check: whenever a node is selected, the player's gold covers FORTIFY_COST and
the node is below MAX_FORTIFICATION, it increments the node's level and
deducts the cost from the player's faction. -/
theorem fortify_unrestricted_c10 :
    ∀ (s : GameState) (nid : String) (node : GameNode),
      s.selectedNodeId = some nid →
      nodesGet s.nodes nid = some node →
      FORTIFY_COST ≤ s.resources.gold.get s.playerFaction →
      node.fortificationLevel < MAX_FORTIFICATION →
      (nodeOf (handleFortify s).nodes nid).fortificationLevel = node.fortificationLevel + 1 ∧
      (handleFortify s).resources.gold.get s.playerFaction
        = s.resources.gold.get s.playerFaction - FORTIFY_COST := by
  intro s nid node hsel hget hgold hlvl
  unfold handleFortify
  rw [hsel]
  dsimp only
  rw [hget]
  dsimp only
  rw [if_pos ⟨hgold, hlvl⟩]
  constructor
  · show (nodeOf (setNode s.nodes nid _) nid).fortificationLevel = _
    unfold nodeOf
    rw [nodesGet_setNode_self hget]
    rfl
  · show (s.resources.gold.set s.playerFaction _).get s.playerFaction = _
    rw [FactionMap.get_set_self]

/-- Demo state for the fortify witness: the game is over and the selected node
"carthage" belongs to the enemy, yet fortify still succeeds. -/
def fortifyDemoState : GameState :=
  { initialState with
    selectedNodeId := some "carthage"
    gameOver := true
    winner := some Faction.CARTHAGE }

theorem fortify_unrestricted_c10_witness :
    fortifyDemoState.gameOver = true ∧
    (nodeOf fortifyDemoState.nodes "carthage").owner ≠ fortifyDemoState.playerFaction ∧
    (nodeOf (handleFortify fortifyDemoState).nodes "carthage").fortificationLevel
      = (nodeOf fortifyDemoState.nodes "carthage").fortificationLevel + 1 ∧
    (handleFortify fortifyDemoState).resources.gold.get fortifyDemoState.playerFaction
      = fortifyDemoState.resources.gold.get fortifyDemoState.playerFaction - FORTIFY_COST :=
  ⟨rfl, by decide,
    (fortify_unrestricted_c10 fortifyDemoState "carthage"
      (nodeOf fortifyDemoState.nodes "carthage") rfl (by decide) (by decide) (by decide))⟩



/-- C4 counterexample: the claim "every Sea node has max manpower 0" fails on
the world's node data — the Tyrrhenian Sea is a Sea node whose `maxManpower`
is the `createNode` default 1000, not 0. -/
theorem sea_node_invariant_c4_cex :
    (nodeOf INITIAL_NODES "tyrrhenian_sea").type = NodeType.SEA ∧
    (nodeOf INITIAL_NODES "tyrrhenian_sea").maxManpower = 1000 ∧
    ¬ (nodeOf INITIAL_NODES "tyrrhenian_sea").maxManpower = 0 := by
  refine ⟨rfl, rfl, ?_⟩
  decide

/-- C4 (amended): every Sea node of the initial world has income 0, manpower
growth 0 and local manpower 0, but max manpower 1000 (the `createNode`
default); and the arrival of a non-fleet unit never changes a Sea node's
owner (on states whose node table is keyed consistently and contains the
unit's location). -/
theorem sea_node_invariant_c4 :
    (∀ p ∈ INITIAL_NODES, p.2.type = NodeType.SEA →
      p.2.income = 0 ∧ p.2.manpowerGrowth = 0 ∧ p.2.localManpower = 0 ∧
        p.2.maxManpower = 1000) ∧
    (∀ (c : TickCtx) (i : Nat),
      (∀ p ∈ c.st.nodes, p.2.id = p.1) →
      (∀ u, c.st.units.get? i = some u →
        u.type ≠ UnitType.FLEET ∧ (nodesGet c.st.nodes u.locationId).isSome) →
      ∀ nid, (nodeOf c.st.nodes nid).type = NodeType.SEA →
        (nodeOf (arrivalStep c i).st.nodes nid).owner = (nodeOf c.st.nodes nid).owner) := by
  constructor
  · decide
  · intro c i hwf hu nid hsea
    unfold arrivalStep
    dsimp only
    split
    · rfl
    next unit hget =>
      obtain ⟨hfleet, hsome⟩ := hu unit hget
      split
      · rfl
      split
      · rfl
      split
      · -- no enemies: possible conquest
        split
        · -- conquest branch entered
          obtain ⟨loc0, hloc0⟩ : ∃ loc0, nodesGet c.st.nodes unit.locationId = some loc0 :=
            Option.isSome_iff_exists.mp hsome
          have hlocEq : nodeOf c.st.nodes unit.locationId = loc0 := by
            unfold nodeOf
            rw [hloc0]
            rfl
          have hlocId : loc0.id = unit.locationId := hwf _ (nodesGet_mem hloc0)
          show (nodeOf (applyConquest c.st unit (nodeOf c.st.nodes unit.locationId)).1.nodes nid).owner = _
          rw [hlocEq]
          unfold applyConquest
          dsimp only
          split
          next hclaim =>
            -- the conquest fires: since the unit is not a fleet, loc is not Sea
            have hlocNotSea : loc0.type ≠ NodeType.SEA := by
              rcases hclaim with ⟨hns, _⟩ | ⟨_, hfl⟩
              · exact hns
              · exact absurd hfl hfleet
            -- so nid cannot be the conquered key
            have hnidNe : nid ≠ loc0.id := by
              intro hEq
              apply hlocNotSea
              have : nodeOf c.st.nodes nid = loc0 := by
                rw [hEq, hlocId]
                exact hlocEq
              rw [this] at hsea
              exact hsea
            have hnodes :
                nodesGet (setNode c.st.nodes loc0.id
                  { loc0 with owner := unit.owner, fortificationLevel := 0 }) nid
                  = nodesGet c.st.nodes nid := nodesGet_setNode_of_ne hnidNe
            split
            · split
              · show (nodeOf (setNode c.st.nodes loc0.id _) nid).owner = _
                unfold nodeOf
                rw [hnodes]
              · show (nodeOf (setNode c.st.nodes loc0.id _) nid).owner = _
                unfold nodeOf
                rw [hnodes]
            · split
              · show (nodeOf (setNode c.st.nodes loc0.id _) nid).owner = _
                unfold nodeOf
                rw [hnodes]
              · show (nodeOf (setNode c.st.nodes loc0.id _) nid).owner = _
                unfold nodeOf
                rw [hnodes]
          · rfl
        · rfl
      · -- combat branch: nodes untouched
        rfl



/-- A settled Carthaginian land unit standing on the Tyrrhenian Sea node. -/
def seaDemoUnit : Unit :=
  { id := "u1", owner := .CARTHAGE, type := .MERCENARY
    strength := 100, maxStrength := 100
    locationId := "tyrrhenian_sea", destinationId := none, path := []
    originId := "carthage", progress := 0
    isMoving := false, isTraining := false, trainingProgress := 100 }

/-- Arrival-loop context holding only `seaDemoUnit`. -/
def seaDemoCtx : TickCtx :=
  { st := { initialState with units := [seaDemoUnit] }, dead := [], events := [], rand := [] }

theorem sea_node_invariant_c4_witness :
    ((nodeOf INITIAL_NODES "ionian_sea").income = 0 ∧
      (nodeOf INITIAL_NODES "ionian_sea").manpowerGrowth = 0 ∧
      (nodeOf INITIAL_NODES "ionian_sea").localManpower = 0 ∧
      (nodeOf INITIAL_NODES "ionian_sea").maxManpower = 1000) ∧
    (nodeOf (arrivalStep seaDemoCtx 0).st.nodes "tyrrhenian_sea").owner
      = (nodeOf seaDemoCtx.st.nodes "tyrrhenian_sea").owner :=
  ⟨sea_node_invariant_c4.1 ("ionian_sea", nodeOf INITIAL_NODES "ionian_sea")
      (by decide) (by decide),
    sea_node_invariant_c4.2 seaDemoCtx 0 (by decide)
      (by intro u hu; cases hu; exact ⟨by decide, by decide⟩)
      "tyrrhenian_sea" (by decide)⟩


/-- C5: through the GameUI action bar, a Fleet can only be recruited at a Port
node, a land kind only at a City or Port node, and at a Sea node the recruit
command changes nothing. -/
theorem recruit_restriction_c5 :
    (∀ (s : GameState) (newId : String), uiRecruit newId UnitType.FLEET s ≠ s →
      ∃ nid node, s.selectedNodeId = some nid ∧ nodesGet s.nodes nid = some node ∧
        node.type = NodeType.PORT) ∧
    (∀ (s : GameState) (newId : String) (t : UnitType), t ≠ UnitType.FLEET →
      uiRecruit newId t s ≠ s →
      ∃ nid node, s.selectedNodeId = some nid ∧ nodesGet s.nodes nid = some node ∧
        (node.type = NodeType.CITY ∨ node.type = NodeType.PORT)) ∧
    (∀ (s : GameState) (newId : String) (t : UnitType) (nid : String) (node : GameNode),
      s.selectedNodeId = some nid → nodesGet s.nodes nid = some node →
      node.type = NodeType.SEA → uiRecruit newId t s = s) := by
  refine ⟨?_, ?_, ?_⟩
  · intro s newId hne
    unfold uiRecruit at hne
    by_cases hc : recruitClickable s UnitType.FLEET = true
    · unfold recruitClickable at hc
      cases hsel : s.selectedNodeId with
      | none => rw [hsel] at hc; exact absurd hc (by simp)
      | some nid =>
        rw [hsel] at hc
        dsimp only at hc
        cases hnode : nodesGet s.nodes nid with
        | none => rw [hnode] at hc; exact absurd hc (by simp)
        | some node =>
          rw [hnode] at hc
          dsimp only at hc
          rw [if_pos rfl] at hc
          simp only [Bool.and_eq_true, decide_eq_true_eq] at hc
          exact ⟨nid, node, rfl, hnode, hc.2.1.1⟩
    · rw [if_neg hc] at hne
      exact absurd rfl hne
  · intro s newId t ht hne
    unfold uiRecruit at hne
    by_cases hc : recruitClickable s t = true
    · unfold recruitClickable at hc
      cases hsel : s.selectedNodeId with
      | none => rw [hsel] at hc; exact absurd hc (by simp)
      | some nid =>
        rw [hsel] at hc
        dsimp only at hc
        cases hnode : nodesGet s.nodes nid with
        | none => rw [hnode] at hc; exact absurd hc (by simp)
        | some node =>
          rw [hnode] at hc
          dsimp only at hc
          rw [if_neg ht] at hc
          simp only [Bool.and_eq_true, Bool.or_eq_true, decide_eq_true_eq] at hc
          exact ⟨nid, node, rfl, hnode, hc.2.1.1⟩
    · rw [if_neg hc] at hne
      exact absurd rfl hne
  · intro s newId t nid node hsel hnode hsea
    unfold uiRecruit
    rw [if_neg ?_]
    unfold recruitClickable
    rw [hsel]
    dsimp only
    rw [hnode]
    dsimp only
    simp [hsea]


/-- Initial world with Rome (a Port the player owns) selected. -/
def recruitDemoState : GameState := { initialState with selectedNodeId := some "rome" }

/-- Initial world with the Ionian Sea node selected. -/
def seaSelectState : GameState := { initialState with selectedNodeId := some "ionian_sea" }

theorem recruit_restriction_c5_witness :
    (∃ nid node, recruitDemoState.selectedNodeId = some nid ∧
      nodesGet recruitDemoState.nodes nid = some node ∧ node.type = NodeType.PORT) ∧
    (∃ nid node, recruitDemoState.selectedNodeId = some nid ∧
      nodesGet recruitDemoState.nodes nid = some node ∧
      (node.type = NodeType.CITY ∨ node.type = NodeType.PORT)) ∧
    uiRecruit "a1" UnitType.LEGION seaSelectState = seaSelectState :=
  ⟨recruit_restriction_c5.1 recruitDemoState "f1" (by decide),
    recruit_restriction_c5.2.1 recruitDemoState "a1" UnitType.LEGION (by decide) (by decide),
    recruit_restriction_c5.2.2 seaSelectState "a1" UnitType.LEGION "ionian_sea"
      (nodeOf seaSelectState.nodes "ionian_sea") rfl (by decide) (by decide)⟩


lemma applyConquest_fst_units (st : GameState) (u : Unit) (loc : GameNode) :
    (applyConquest st u loc).1.units = st.units := by
  unfold applyConquest
  dsimp only
  split
  · split <;> split <;> rfl
  · rfl

lemma two_unit_combat
    (s : GameState) (u1 u2 : Unit) (r1 r2 : ℚ) (rest : Rand)
    (hloc : u2.locationId = u1.locationId)
    (hown : u2.owner ≠ u1.owner) (hm1 : u1.isMoving = false) (ht1 : u1.isTraining = false)
    (hm2 : u2.isMoving = false) (ht2 : u2.isTraining = false) (hid : u1.id ≠ u2.id) :
    (arrivalsPhase
        { st := { s with units := [u1, u2] }, dead := [], events := [], rand := r1 :: r2 :: rest
        }).st.units
      = [(handleCombat u1 u2 s.nodes r1 r2).winner] := by
  have hen : enemiesAt [u1, u2] [] u1 = [u2] := by
    unfold enemiesAt
    simp [List.filter, hloc, hown, ht2]
  have hstep0 : arrivalStep ⟨{ s with units := [u1, u2] }, [], [], r1 :: r2 :: rest⟩ 0
      = ⟨{ s with units := (setStrengthFirst [u1, u2]
            (handleCombat u1 u2 s.nodes r1 r2).winner.id
            (handleCombat u1 u2 s.nodes r1 r2).winner.strength) },
          [] ++ [(handleCombat u1 u2 s.nodes r1 r2).loser.id],
          (if s.playerFaction = Faction.SPECTATOR ∨
              (handleCombat u1 u2 s.nodes r1 r2).winner.owner = s.playerFaction ∨
              (handleCombat u1 u2 s.nodes r1 r2).loser.owner = s.playerFaction
            then [] ++ [(handleCombat u1 u2 s.nodes r1 r2).flavor] else []),
          rest⟩ := by
    unfold arrivalStep
    rw [show ([u1, u2].get? 0) = some u1 from rfl]
    dsimp only
    rw [if_neg (List.not_mem_nil u1.id)]
    rw [hm1, ht1]
    rw [if_neg (by simp)]
    rw [hen]
    rfl
  unfold arrivalsPhase
  dsimp only
  rw [show List.range (List.length [u1, u2]) = [0, 1] from rfl]
  simp only [List.foldl_cons, List.foldl_nil]
  simp only [hstep0]
  rcases le_or_lt (r2 * u2.strength * combatMod (nodeOf s.nodes u1.locationId) u2)
      (r1 * u1.strength * combatMod (nodeOf s.nodes u1.locationId) u1) with hcmp | hcmp
  · -- u1 wins: its strength is updated in place and u2 is purged
    have hW : (handleCombat u1 u2 s.nodes r1 r2).winner
        = { u1 with strength :=
              (max 10 (u1.strength - 20 / combatMod (nodeOf s.nodes u1.locationId) u1)) } := by
      unfold handleCombat
      dsimp only
      rw [if_pos hcmp]
    have hL : (handleCombat u1 u2 s.nodes r1 r2).loser = u2 := by
      unfold handleCombat
      dsimp only
      rw [if_pos hcmp]
    simp only [hW, hL]
    simp only [show setStrengthFirst [u1, u2] u1.id
        (max 10 (u1.strength - 20 / combatMod (nodeOf s.nodes u1.locationId) u1))
        = [{ u1 with strength :=
              (max 10 (u1.strength - 20 / combatMod (nodeOf s.nodes u1.locationId) u1)) }, u2]
      from by
      unfold setStrengthFirst
      rw [if_pos rfl]]
    generalize hw : ({ u1 with strength :=
        (max 10 (u1.strength - 20 / combatMod (nodeOf s.nodes u1.locationId) u1)) } : Unit) = w
    have hwid : w.id = u1.id := by rw [← hw]
    unfold arrivalStep
    rw [show ([w, u2].get? 1) = some u2 from rfl]
    dsimp only
    rw [if_pos (by simp)]
    dsimp only
    simp [List.filter, hwid, hid]
  · -- u2 wins: its strength is updated in place and u1 is purged
    have hW : (handleCombat u1 u2 s.nodes r1 r2).winner
        = { u2 with strength :=
              (max 10 (u2.strength - 20 / combatMod (nodeOf s.nodes u1.locationId) u2)) } := by
      unfold handleCombat
      dsimp only
      rw [if_neg (not_le.mpr hcmp)]
    have hL : (handleCombat u1 u2 s.nodes r1 r2).loser = u1 := by
      unfold handleCombat
      dsimp only
      rw [if_neg (not_le.mpr hcmp)]
    simp only [hW, hL]
    simp only [show setStrengthFirst [u1, u2] u2.id
        (max 10 (u2.strength - 20 / combatMod (nodeOf s.nodes u1.locationId) u2))
        = [u1, { u2 with strength :=
              (max 10 (u2.strength - 20 / combatMod (nodeOf s.nodes u1.locationId) u2)) }]
      from by
      unfold setStrengthFirst
      rw [if_neg hid]
      unfold setStrengthFirst
      rw [if_pos rfl]]
    generalize hw : ({ u2 with strength :=
        (max 10 (u2.strength - 20 / combatMod (nodeOf s.nodes u1.locationId) u2)) } : Unit) = w
    have hwid : w.id = u2.id := by rw [← hw]
    have hwowner : w.owner = u2.owner := by rw [← hw]
    have hwmov : w.isMoving = false := by rw [← hw]; exact hm2
    have hwtr : w.isTraining = false := by rw [← hw]; exact ht2
    unfold arrivalStep
    rw [show ([u1, w].get? 1) = some w from rfl]
    dsimp only
    rw [if_neg (by simp [hwid, Ne.symm hid])]
    rw [hwmov, hwtr]
    rw [if_neg (by simp)]
    rw [show enemiesAt [u1, w] ([] ++ [u1.id]) w = [] from by
      unfold enemiesAt
      simp [List.filter, hwowner]]
    dsimp only
    split
    · rw [applyConquest_fst_units]
      simp [List.filter, hwid, Ne.symm hid]
    · dsimp only
      simp [List.filter, hwid, Ne.symm hid]



lemma one_le_combatMod (loc : GameNode) (u : Unit) : 1 ≤ combatMod loc u := by
  unfold combatMod
  dsimp only
  split
  next hf =>
    have h1 : (1 : ℚ) ≤ (loc.fortificationLevel : ℚ) := by exact_mod_cast hf.2
    split
    · linarith
    · linarith
  next =>
    split
    · norm_num
    · exact le_refl 1

/-- C2: the combat resolver's effective modifier is base 1, replaced by 1.5
for a fleet in a Sea node, plus `0.5 × fortificationLevel` for the node's
owner (additively, so a fleet defending its own sea node has `1.5 + 0.5·lvl`);
each roll lies in `[0, strength × modifier)`; the higher roll wins with exact
ties favouring the first unit; the winner's strength becomes
`max(10, strength − 20/winnerMod)`; and the loser is removed from the world
regardless of remaining strength. -/
theorem combat_resolution_c2 :
    (∀ (loc : GameNode) (u : Unit), 0 ≤ loc.fortificationLevel →
      combatMod loc u =
        (if loc.type = NodeType.SEA ∧ u.type = UnitType.FLEET then (3 : ℚ) / 2 else 1) +
        (if loc.owner = u.owner then (loc.fortificationLevel : ℚ) * (1 / 2) else 0)) ∧
    (∀ (s : GameState) (u1 u2 : Unit) (r1 r2 : ℚ) (rest : Rand),
      u2.locationId = u1.locationId → u2.owner ≠ u1.owner →
      u1.isMoving = false → u1.isTraining = false →
      u2.isMoving = false → u2.isTraining = false →
      u1.id ≠ u2.id →
      0 ≤ r1 → r1 < 1 → 0 ≤ r2 → r2 < 1 →
      0 < u1.strength → 0 < u2.strength →
      ((0 ≤ r1 * u1.strength * combatMod (nodeOf s.nodes u1.locationId) u1 ∧
        r1 * u1.strength * combatMod (nodeOf s.nodes u1.locationId) u1
          < u1.strength * combatMod (nodeOf s.nodes u1.locationId) u1) ∧
       (0 ≤ r2 * u2.strength * combatMod (nodeOf s.nodes u1.locationId) u2 ∧
        r2 * u2.strength * combatMod (nodeOf s.nodes u1.locationId) u2
          < u2.strength * combatMod (nodeOf s.nodes u1.locationId) u2) ∧
       (r2 * u2.strength * combatMod (nodeOf s.nodes u1.locationId) u2
          ≤ r1 * u1.strength * combatMod (nodeOf s.nodes u1.locationId) u1 →
        (handleCombat u1 u2 s.nodes r1 r2).winner
          = { u1 with strength :=
                (max 10 (u1.strength - 20 / combatMod (nodeOf s.nodes u1.locationId) u1)) } ∧
        (handleCombat u1 u2 s.nodes r1 r2).loser = u2) ∧
       (r1 * u1.strength * combatMod (nodeOf s.nodes u1.locationId) u1
          < r2 * u2.strength * combatMod (nodeOf s.nodes u1.locationId) u2 →
        (handleCombat u1 u2 s.nodes r1 r2).winner
          = { u2 with strength :=
                (max 10 (u2.strength - 20 / combatMod (nodeOf s.nodes u1.locationId) u2)) } ∧
        (handleCombat u1 u2 s.nodes r1 r2).loser = u1) ∧
       (arrivalsPhase
          { st := { s with units := [u1, u2] }, dead := [], events := []
            rand := r1 :: r2 :: rest }).st.units
          = [(handleCombat u1 u2 s.nodes r1 r2).winner])) := by
  constructor
  · intro loc u hlvl
    unfold combatMod
    dsimp only
    rcases eq_or_lt_of_le hlvl with h0 | hpos
    · rw [if_neg (by rw [← h0]; simp)]
      rw [← h0]
      simp
    · by_cases hf : loc.owner = u.owner
      · rw [if_pos ⟨hf, hpos⟩, if_pos hf]
      · rw [if_neg (fun h => hf h.1), if_neg hf, add_zero]
  · intro s u1 u2 r1 r2 rest hloc hown hm1 ht1 hm2 ht2 hid hr1 hr1lt hr2 hr2lt hs1 hs2
    have hmod1 := one_le_combatMod (nodeOf s.nodes u1.locationId) u1
    have hmod2 := one_le_combatMod (nodeOf s.nodes u1.locationId) u2
    refine ⟨⟨?_, ?_⟩, ⟨?_, ?_⟩, ?_, ?_, ?_⟩
    · exact mul_nonneg (mul_nonneg hr1 hs1.le) (le_trans zero_le_one hmod1)
    · have hpos : 0 < u1.strength * combatMod (nodeOf s.nodes u1.locationId) u1 :=
        mul_pos hs1 (lt_of_lt_of_le one_pos hmod1)
      calc r1 * u1.strength * combatMod (nodeOf s.nodes u1.locationId) u1
          = r1 * (u1.strength * combatMod (nodeOf s.nodes u1.locationId) u1) := by ring
        _ < 1 * (u1.strength * combatMod (nodeOf s.nodes u1.locationId) u1) :=
            mul_lt_mul_of_pos_right hr1lt hpos
        _ = u1.strength * combatMod (nodeOf s.nodes u1.locationId) u1 := one_mul _
    · exact mul_nonneg (mul_nonneg hr2 hs2.le) (le_trans zero_le_one hmod2)
    · have hpos : 0 < u2.strength * combatMod (nodeOf s.nodes u1.locationId) u2 :=
        mul_pos hs2 (lt_of_lt_of_le one_pos hmod2)
      calc r2 * u2.strength * combatMod (nodeOf s.nodes u1.locationId) u2
          = r2 * (u2.strength * combatMod (nodeOf s.nodes u1.locationId) u2) := by ring
        _ < 1 * (u2.strength * combatMod (nodeOf s.nodes u1.locationId) u2) :=
            mul_lt_mul_of_pos_right hr2lt hpos
        _ = u2.strength * combatMod (nodeOf s.nodes u1.locationId) u2 := one_mul _
    · intro hcmp
      constructor
      · unfold handleCombat
        dsimp only
        rw [if_pos hcmp]
      · unfold handleCombat
        dsimp only
        rw [if_pos hcmp]
    · intro hcmp
      constructor
      · unfold handleCombat
        dsimp only
        rw [if_neg (not_le.mpr hcmp)]
      · unfold handleCombat
        dsimp only
        rw [if_neg (not_le.mpr hcmp)]
    · exact two_unit_combat s u1 u2 r1 r2 rest hloc hown hm1 ht1 hm2 ht2 hid



/-- Carthaginian fleet sitting in the Sicilian Strait. -/
def demoFleetC : Unit :=
  { id := "cf", owner := .CARTHAGE, type := .FLEET
    strength := 100, maxStrength := 100
    locationId := "sicilian_strait", destinationId := none, path := []
    originId := "carthage", progress := 0
    isMoving := false, isTraining := false, trainingProgress := 100 }

/-- Roman fleet that has arrived in the same sea zone. -/
def demoFleetR : Unit :=
  { id := "rf", owner := .ROME, type := .FLEET
    strength := 100, maxStrength := 100
    locationId := "sicilian_strait", destinationId := none, path := []
    originId := "rome", progress := 0
    isMoving := false, isTraining := false, trainingProgress := 100 }

theorem combat_resolution_c2_witness :
    (combatMod (nodeOf INITIAL_NODES "carthage") demoFleetC =
      (if (nodeOf INITIAL_NODES "carthage").type = NodeType.SEA ∧
          demoFleetC.type = UnitType.FLEET then (3 : ℚ) / 2 else 1) +
      (if (nodeOf INITIAL_NODES "carthage").owner = demoFleetC.owner then
        ((nodeOf INITIAL_NODES "carthage").fortificationLevel : ℚ) * (1 / 2) else 0)) ∧
    ((0 ≤ (1 : ℚ) / 2 * demoFleetC.strength *
        combatMod (nodeOf initialState.nodes demoFleetC.locationId) demoFleetC ∧
      (1 : ℚ) / 2 * demoFleetC.strength *
          combatMod (nodeOf initialState.nodes demoFleetC.locationId) demoFleetC
        < demoFleetC.strength *
          combatMod (nodeOf initialState.nodes demoFleetC.locationId) demoFleetC) ∧
      (0 ≤ (1 : ℚ) / 4 * demoFleetR.strength *
          combatMod (nodeOf initialState.nodes demoFleetC.locationId) demoFleetR ∧
        (1 : ℚ) / 4 * demoFleetR.strength *
            combatMod (nodeOf initialState.nodes demoFleetC.locationId) demoFleetR
          < demoFleetR.strength *
            combatMod (nodeOf initialState.nodes demoFleetC.locationId) demoFleetR) ∧
      ((1 : ℚ) / 4 * demoFleetR.strength *
          combatMod (nodeOf initialState.nodes demoFleetC.locationId) demoFleetR
        ≤ (1 : ℚ) / 2 * demoFleetC.strength *
          combatMod (nodeOf initialState.nodes demoFleetC.locationId) demoFleetC →
        (handleCombat demoFleetC demoFleetR initialState.nodes ((1 : ℚ) / 2) ((1 : ℚ) / 4)).winner
          = { demoFleetC with strength :=
                (max 10 (demoFleetC.strength - 20 /
                  combatMod (nodeOf initialState.nodes demoFleetC.locationId) demoFleetC)) } ∧
        (handleCombat demoFleetC demoFleetR initialState.nodes
          ((1 : ℚ) / 2) ((1 : ℚ) / 4)).loser = demoFleetR) ∧
      ((1 : ℚ) / 2 * demoFleetC.strength *
          combatMod (nodeOf initialState.nodes demoFleetC.locationId) demoFleetC
        < (1 : ℚ) / 4 * demoFleetR.strength *
          combatMod (nodeOf initialState.nodes demoFleetC.locationId) demoFleetR →
        (handleCombat demoFleetC demoFleetR initialState.nodes ((1 : ℚ) / 2) ((1 : ℚ) / 4)).winner
          = { demoFleetR with strength :=
                (max 10 (demoFleetR.strength - 20 /
                  combatMod (nodeOf initialState.nodes demoFleetC.locationId) demoFleetR)) } ∧
        (handleCombat demoFleetC demoFleetR initialState.nodes
          ((1 : ℚ) / 2) ((1 : ℚ) / 4)).loser = demoFleetC) ∧
      (arrivalsPhase
        { st := { initialState with units := [demoFleetC, demoFleetR] }, dead := [], events := []
          rand := (1 : ℚ) / 2 :: (1 : ℚ) / 4 :: [] }).st.units
        = [(handleCombat demoFleetC demoFleetR initialState.nodes
            ((1 : ℚ) / 2) ((1 : ℚ) / 4)).winner]) :=
  ⟨combat_resolution_c2.1 (nodeOf INITIAL_NODES "carthage") demoFleetC (by decide),
    combat_resolution_c2.2 initialState demoFleetC demoFleetR ((1 : ℚ) / 2) ((1 : ℚ) / 4) []
      rfl (by decide) rfl rfl rfl rfl (by decide) (by norm_num) (by norm_num) (by norm_num)
      (by norm_num) (by norm_num [demoFleetC]) (by norm_num [demoFleetR])⟩


lemma setStrengthFirst_map_id (l : List Unit) (uid : String) (str : ℚ) :
    (setStrengthFirst l uid str).map Unit.id = l.map Unit.id := by
  induction l with
  | nil => rfl
  | cons v rest ih =>
    unfold setStrengthFirst
    split
    · rfl
    · simp [ih]

lemma mem_setStrengthFirst_of_ne {l : List Unit} {u : Unit} {uid : String} {str : ℚ}
    (hu : u ∈ l) (hne : u.id ≠ uid) : u ∈ setStrengthFirst l uid str := by
  induction l with
  | nil => exact absurd hu (List.not_mem_nil u)
  | cons v rest ih =>
    unfold setStrengthFirst
    rcases List.mem_cons.mp hu with h | h
    · split
      next hv => exact absurd (h ▸ hv) hne
      next => exact h ▸ List.mem_cons_self v _
    · split
      · exact List.mem_cons_of_mem _ h
      · exact List.mem_cons_of_mem _ (ih h)

lemma handleCombat_winner_id (u1 u2 : Unit) (nodes : List (String × GameNode)) (r1 r2 : ℚ) :
    (handleCombat u1 u2 nodes r1 r2).winner.id = u1.id ∨
    (handleCombat u1 u2 nodes r1 r2).winner.id = u2.id := by
  unfold handleCombat
  dsimp only
  split
  · left; rfl
  · right; rfl

lemma handleCombat_loser_eq (u1 u2 : Unit) (nodes : List (String × GameNode)) (r1 r2 : ℚ) :
    (handleCombat u1 u2 nodes r1 r2).loser = u2 ∨
    (handleCombat u1 u2 nodes r1 r2).loser = u1 := by
  unfold handleCombat
  dsimp only
  split
  · left; rfl
  · right; rfl

lemma arrivalStep_training_immune (c : TickCtx) (i : Nat) (u : Unit)
    (hnodup : (c.st.units.map Unit.id).Nodup)
    (hu : u ∈ c.st.units) (htr : u.isTraining = true) (hdead : u.id ∉ c.dead) :
    u ∈ (arrivalStep c i).st.units ∧ u.id ∉ (arrivalStep c i).dead ∧
      ((arrivalStep c i).st.units.map Unit.id = c.st.units.map Unit.id) := by
  unfold arrivalStep
  dsimp only
  split
  · exact ⟨hu, hdead, rfl⟩
  next unit hget =>
    split
    · exact ⟨hu, hdead, rfl⟩
    split
    · exact ⟨hu, hdead, rfl⟩
    next hflags =>
      -- the scanned unit is settled and not in training
      have hunitMem : unit ∈ c.st.units := List.get?_mem hget
      have hunitTr : unit.isTraining = false := by
        rcases Bool.eq_false_or_eq_true unit.isTraining with h | h
        · exact absurd (Or.inr h) hflags
        · exact h
      have hne_unit : u.id ≠ unit.id := by
        intro hEq
        have : u = unit := List.inj_on_of_nodup_map hnodup hu hunitMem hEq
        rw [this] at htr
        rw [htr] at hunitTr
        exact Bool.true_eq_false.mp hunitTr
      split
      · -- no enemies: conquest, units unchanged
        split
        · refine ⟨?_, hdead, ?_⟩
          · show u ∈ (applyConquest c.st unit _).1.units
            rw [applyConquest_fst_units]
            exact hu
          · show ((applyConquest c.st unit _).1.units.map Unit.id) = _
            rw [applyConquest_fst_units]
        · exact ⟨hu, hdead, rfl⟩
      next enemy tail henemies =>
        -- combat: the enemy is also not in training
        have henemyMem : enemy ∈ enemiesAt c.st.units c.dead unit := by
          rw [henemies]; exact List.mem_cons_self enemy tail
        have henemyIn : enemy ∈ c.st.units ∧ enemy.isTraining = false := by
          unfold enemiesAt at henemyMem
          have := List.mem_filter.mp henemyMem
          refine ⟨this.1, ?_⟩
          have hp := of_decide_eq_true this.2
          exact hp.2.2.2
        have hne_enemy : u.id ≠ enemy.id := by
          intro hEq
          have : u = enemy := List.inj_on_of_nodup_map hnodup hu henemyIn.1 hEq
          rw [this] at htr
          rw [htr] at henemyIn
          exact Bool.true_eq_false.mp henemyIn.2
        have hne_winner : u.id ≠ (handleCombat unit enemy c.st.nodes
            (draw c.rand).1 (draw (draw c.rand).2).1).winner.id := by
          rcases handleCombat_winner_id unit enemy c.st.nodes
              (draw c.rand).1 (draw (draw c.rand).2).1 with h | h
          · rw [h]; exact hne_unit
          · rw [h]; exact hne_enemy
        have hne_loser : u.id ≠ (handleCombat unit enemy c.st.nodes
            (draw c.rand).1 (draw (draw c.rand).2).1).loser.id := by
          rcases handleCombat_loser_eq unit enemy c.st.nodes
              (draw c.rand).1 (draw (draw c.rand).2).1 with h | h
          · rw [h]; exact hne_enemy
          · rw [h]; exact hne_unit
        refine ⟨mem_setStrengthFirst_of_ne hu hne_winner, ?_, setStrengthFirst_map_id _ _ _⟩
        intro hmem
        rcases List.mem_append.mp hmem with h | h
        · exact hdead h
        · exact hne_loser (List.mem_singleton.mp h)

/-- C9 (implicit): a unit whose training flag is set is never picked as
combat initiator (the loop skips it) nor as opponent (the enemy filter
excludes it), so it survives the whole arrival/combat phase untouched — same
record, same strength, not removed — even with idle enemies on its node. -/
theorem training_immunity_c9 (c : TickCtx) (u : Unit)
    (hnodup : (c.st.units.map Unit.id).Nodup)
    (hu : u ∈ c.st.units) (htr : u.isTraining = true) (hdead : u.id ∉ c.dead) :
    u ∈ (arrivalsPhase c).st.units := by
  have hfold : ∀ (l : List Nat) (d : TickCtx),
      (d.st.units.map Unit.id).Nodup → u ∈ d.st.units → u.id ∉ d.dead →
      u ∈ (l.foldl arrivalStep d).st.units ∧ u.id ∉ (l.foldl arrivalStep d).dead := by
    intro l
    induction l with
    | nil => intro d h1 h2 h3; exact ⟨h2, h3⟩
    | cons i rest ih =>
      intro d h1 h2 h3
      rw [List.foldl_cons]
      obtain ⟨m1, m2, m3⟩ := arrivalStep_training_immune d i u h1 h2 htr h3
      exact ih (arrivalStep d i) (by rw [m3]; exact h1) m1 m2
  unfold arrivalsPhase
  dsimp only
  obtain ⟨m1, m2⟩ := hfold (List.range c.st.units.length) c hnodup hu hdead
  apply List.mem_filter_of_mem m1
  simp [m2]


/-- A Roman unit still in training at Rome. -/
def traineeDemo : Unit :=
  { id := "t1", owner := .ROME, type := .LEGION
    strength := 100, maxStrength := 100
    locationId := "rome", destinationId := none, path := []
    originId := "rome", progress := 0
    isMoving := false, isTraining := true, trainingProgress := 50 }

/-- An idle Carthaginian raider standing on the same node. -/
def raiderDemo : Unit :=
  { id := "e1", owner := .CARTHAGE, type := .MERCENARY
    strength := 100, maxStrength := 100
    locationId := "rome", destinationId := none, path := []
    originId := "carthage", progress := 0
    isMoving := false, isTraining := false, trainingProgress := 100 }

theorem training_immunity_c9_witness :
    traineeDemo ∈ (arrivalsPhase
      { st := { initialState with units := [traineeDemo, raiderDemo] }, dead := [], events := []
        rand := [1/2, 1/2] }).st.units :=
  training_immunity_c9
    { st := { initialState with units := [traineeDemo, raiderDemo] }, dead := [], events := []
      rand := [1/2, 1/2] }
    traineeDemo (by decide) (by decide) rfl (by decide)


/-- C3: conquering the opposing capital ('rome' by Carthage, 'carthage' by
Rome) in the arrival loop sets the game-over flag with the conqueror recorded
as winner; and once game-over is set, every tick returns the state verbatim
(winner included). -/
theorem terminal_win_c3 :
    (∀ (r : Rand) (uid : Nat) (s : GameState), s.gameOver = true → updateGame r uid s = s) ∧
    (∀ (c : TickCtx) (i : Nat) (u : Unit),
      c.st.units.get? i = some u →
      u.id ∉ c.dead →
      u.isMoving = false → u.isTraining = false →
      enemiesAt c.st.units c.dead u = [] →
      (nodeOf c.st.nodes u.locationId).owner ≠ u.owner →
      (((nodeOf c.st.nodes u.locationId).type ≠ NodeType.SEA ∧ u.type ≠ UnitType.FLEET) ∨
        ((nodeOf c.st.nodes u.locationId).type = NodeType.SEA ∧ u.type = UnitType.FLEET)) →
      (((nodeOf c.st.nodes u.locationId).id = "rome" ∧ u.owner = Faction.CARTHAGE) ∨
        ((nodeOf c.st.nodes u.locationId).id = "carthage" ∧ u.owner = Faction.ROME)) →
      (arrivalStep c i).st.gameOver = true ∧
        (arrivalStep c i).st.winner = some u.owner) := by
  constructor
  · intro r uid s hgo
    unfold updateGame
    rw [if_pos (Or.inr hgo)]
  · intro c i u hget hdead hmov htr henem howner hkind hcap
    unfold arrivalStep
    rw [hget]
    dsimp only
    rw [if_neg hdead]
    rw [hmov, htr]
    rw [if_neg (by simp)]
    rw [henem]
    dsimp only
    rw [if_pos howner]
    unfold applyConquest
    dsimp only
    rw [if_pos hkind]
    rcases hcap with ⟨hid, hC⟩ | ⟨hid, hR⟩
    · rw [if_neg (fun h => by rw [hC] at h; exact absurd h.2 (by decide))]
      rw [if_pos ⟨hid, hC⟩]
      exact ⟨rfl, by rw [hC]⟩
    · rw [if_pos ⟨hid, hR⟩]
      exact ⟨rfl, by rw [hR]⟩

/-- A settled Carthaginian army standing unopposed on Rome. -/
def conquerorDemo : Unit :=
  { id := "h1", owner := .CARTHAGE, type := .MERCENARY
    strength := 100, maxStrength := 100
    locationId := "rome", destinationId := none, path := []
    originId := "carthage", progress := 0
    isMoving := false, isTraining := false, trainingProgress := 100 }

/-- Arrival context in which Hannibal's army has just reached Rome. -/
def conquestCtx : TickCtx :=
  { st := { initialState with units := [conquerorDemo] }, dead := [], events := [], rand := [] }

/-- An already-finished game. -/
def finishedState : GameState :=
  { initialState with gameOver := true, winner := some Faction.ROME }

theorem terminal_win_c3_witness :
    updateGame [1/2] 7 finishedState = finishedState ∧
    (arrivalStep conquestCtx 0).st.gameOver = true ∧
    (arrivalStep conquestCtx 0).st.winner = some conquerorDemo.owner :=
  ⟨terminal_win_c3.1 [1/2] 7 finishedState rfl,
    terminal_win_c3.2 conquestCtx 0 conquerorDemo rfl (by decide) rfl rfl (by decide)
      (by decide) (by decide) (by decide)⟩


/-- The event, inside the uniform sample space `[0,1)` of `Math.random()`,
that the AI move-friction draw issues the move (`Math.random() > 0.6`). -/
def aiMoveIssuedEvent : Set ℝ := {r : ℝ | r ∈ Set.Ico (0 : ℝ) 1 ∧ (3 : ℝ) / 5 < r}

/-- The complementary event: the draw suppresses the move. -/
def aiMoveSkippedEvent : Set ℝ := {r : ℝ | r ∈ Set.Ico (0 : ℝ) 1 ∧ ¬ ((3 : ℝ) / 5 < r)}

lemma aiMoveIssuedEvent_eq : aiMoveIssuedEvent = Set.Ioo ((3 : ℝ) / 5) 1 := by
  ext x
  simp only [aiMoveIssuedEvent, Set.mem_setOf_eq, Set.mem_Ico, Set.mem_Ioo]
  constructor
  · rintro ⟨⟨_, h1⟩, h2⟩
    exact ⟨h2, h1⟩
  · rintro ⟨h2, h1⟩
    exact ⟨⟨le_trans (by norm_num) h2.le, h1⟩, h2⟩

lemma aiMoveSkippedEvent_eq : aiMoveSkippedEvent = Set.Icc (0 : ℝ) ((3 : ℝ) / 5) := by
  ext x
  simp only [aiMoveSkippedEvent, Set.mem_setOf_eq, Set.mem_Ico, Set.mem_Icc, not_lt]
  constructor
  · rintro ⟨⟨h0, _⟩, h2⟩
    exact ⟨h0, h2⟩
  · rintro ⟨h0, h2⟩
    exact ⟨⟨h0, lt_of_le_of_lt h2 (by norm_num)⟩, h2⟩

/-- C7 counterexample: the no-move event does not have probability 40%
(uniform measure on the draw): its measure is 3/5, not 2/5, so the claim
"no move with probability 40% / move with probability 60%" is false. -/
theorem ai_move_friction_c7_cex :
    MeasureTheory.volume aiMoveSkippedEvent ≠ ENNReal.ofReal ((2 : ℝ) / 5) := by
  rw [aiMoveSkippedEvent_eq, Real.volume_Icc]
  rw [Ne, ENNReal.ofReal_eq_ofReal_iff (by norm_num) (by norm_num)]
  norm_num

/-- C7 (amended): the AI issues the move intent exactly when the friction
draw exceeds 0.6, so under the uniform draw the move is issued with
probability 2/5 (40%) and suppressed with probability 3/5 (60%) — the
opposite split of the one claimed. -/
theorem ai_move_friction_c7 :
    (∀ q : ℚ, aiMoveIssued q = true ↔ (3 : ℚ) / 5 < q) ∧
    (∀ q : ℚ, 0 ≤ q → q < 1 → (aiMoveIssued q = true ↔ (q : ℝ) ∈ aiMoveIssuedEvent)) ∧
    MeasureTheory.volume aiMoveIssuedEvent = ENNReal.ofReal ((2 : ℝ) / 5) ∧
    MeasureTheory.volume aiMoveSkippedEvent = ENNReal.ofReal ((3 : ℝ) / 5) := by
  refine ⟨?_, ?_, ?_, ?_⟩
  · intro q
    unfold aiMoveIssued
    exact decide_eq_true_iff
  · intro q h0 h1
    unfold aiMoveIssued
    rw [decide_eq_true_eq]
    unfold aiMoveIssuedEvent
    simp only [Set.mem_setOf_eq, Set.mem_Ico]
    constructor
    · intro h
      refine ⟨⟨by exact_mod_cast h0, by exact_mod_cast h1⟩, ?_⟩
      have h2 : (((3 : ℚ) / 5 : ℚ) : ℝ) < (q : ℝ) := by exact_mod_cast h
      calc (3 : ℝ) / 5 = (((3 : ℚ) / 5 : ℚ) : ℝ) := by push_cast; ring
        _ < (q : ℝ) := h2
    · rintro ⟨_, h⟩
      have h2 : (((3 : ℚ) / 5 : ℚ) : ℝ) < (q : ℝ) := by
        calc (((3 : ℚ) / 5 : ℚ) : ℝ) = (3 : ℝ) / 5 := by push_cast; ring
          _ < (q : ℝ) := h
      exact_mod_cast h2
  · rw [aiMoveIssuedEvent_eq, Real.volume_Ioo]
    norm_num
  · rw [aiMoveSkippedEvent_eq, Real.volume_Icc]
    norm_num

theorem ai_move_friction_c7_witness :
    (aiMoveIssued ((7 : ℚ) / 10) = true ↔ (((7 : ℚ) / 10 : ℚ) : ℝ) ∈ aiMoveIssuedEvent) ∧
    (aiMoveIssued ((1 : ℚ) / 2) = true ↔ (3 : ℚ) / 5 < (1 : ℚ) / 2) :=
  ⟨ai_move_friction_c7.2.1 ((7 : ℚ) / 10) (by norm_num) (by norm_num),
    ai_move_friction_c7.1 ((1 : ℚ) / 2)⟩


/-- A hop-by-hop check that `p` is a valid route from `a` under the BFS
traversal rule: each step goes along an adjacency edge that `canTraverse`
allows. -/
def routeOk (s : GameState) (f : Faction) : String → List String → Bool
  | _, [] => true
  | a, b :: rest =>
    decide (b ∈ (nodeOf s.nodes a).connections) && canTraverse s f a b && routeOk s f b rest

/-- `p` is a route from `start` ending at `endI`. -/
def ReachesVia (s : GameState) (f : Faction) (start : String) (p : List String)
    (endI : String) : Prop :=
  routeOk s f start p = true ∧ p.getLastD start = endI

/-- Some route from `start` reaches `endI` under the current fleet placement. -/
def Reachable (s : GameState) (f : Faction) (start endI : String) : Prop :=
  ∃ p, ReachesVia s f start p endI

lemma routeOk_append_one {s : GameState} {f : Faction} {a : String} {p : List String}
    {b c : String} (hp : routeOk s f a p = true) (hl : p.getLastD a = b)
    (hconn : c ∈ (nodeOf s.nodes b).connections) (htrav : canTraverse s f b c = true) :
    routeOk s f a (p ++ [c]) = true ∧ (p ++ [c]).getLastD a = c := by
  constructor
  · induction p generalizing a with
    | nil =>
      have : a = b := hl
      subst this
      rw [List.nil_append, routeOk]
      simp [hconn, htrav, routeOk]
    | cons d rest ih =>
      rw [routeOk] at hp
      simp only [Bool.and_eq_true] at hp
      rw [List.cons_append, routeOk]
      simp only [Bool.and_eq_true]
      refine ⟨⟨hp.1.1, hp.1.2⟩, ?_⟩
      exact ih hp.2 (by rw [← hl, List.getLastD_cons])
  · exact List.getLastD_concat a c p

/-- Every queue entry of the BFS carries a valid route from `start` to its id. -/
def QueueOk (s : GameState) (f : Faction) (start : String)
    (queue : List (String × List String)) : Prop :=
  ∀ e ∈ queue, routeOk s f start e.2 = true ∧ e.2.getLastD start = e.1

lemma enqueueNeighbors_queueOk {s : GameState} {f : Faction} {start id : String}
    {path : List String}
    (hcur : routeOk s f start path = true ∧ path.getLastD start = id) :
    ∀ (conns : List String),
      (∀ x ∈ conns, x ∈ (nodeOf s.nodes id).connections) →
      ∀ (acc : List (String × List String) × List String),
      QueueOk s f start acc.1 →
      QueueOk s f start (enqueueNeighbors s f id path conns acc).1 := by
  intro conns
  induction conns with
  | nil => intro _ acc hq; exact hq
  | cons c rest ih =>
    intro hsub acc hq
    unfold enqueueNeighbors
    rw [List.foldl_cons]
    have hstep : QueueOk s f start
        ((if c ∈ acc.2 then acc
          else if canTraverse s f id c then
            (acc.1 ++ [(c, path ++ [c])], c :: acc.2)
          else acc)).1 := by
      split
      · exact hq
      split
      next htrav =>
        intro e he
        rcases List.mem_append.mp he with h | h
        · exact hq e h
        · have : e = (c, path ++ [c]) := List.mem_singleton.mp h
          subst this
          exact routeOk_append_one hcur.1 hcur.2 (hsub c (List.mem_cons_self c rest)) htrav
      · exact hq
    exact ih (fun x hx => hsub x (List.mem_cons_of_mem c hx)) _ hstep

lemma bfsLoop_sound {s : GameState} {f : Faction} {start endId : String} :
    ∀ (fuel : Nat) (queue : List (String × List String)) (visited : List String)
      (p : List String),
      QueueOk s f start queue →
      bfsLoop s f endId fuel queue visited = some p →
      routeOk s f start p = true ∧ p.getLastD start = endId := by
  intro fuel
  induction fuel with
  | zero => intro queue visited p _ h; exact absurd h (by rw [bfsLoop]; simp)
  | succ n ih =>
    intro queue visited p hq h
    rcases queue with _ | ⟨⟨id, path⟩, rest⟩
    · exact absurd h (by rw [bfsLoop]; simp)
    · rw [bfsLoop] at h
      split at h
      next hEq =>
        obtain ⟨h1, h2⟩ := hq (id, path) (List.mem_cons_self _ _)
        cases h
        exact ⟨h1, by rw [h2, hEq]⟩
      next hne =>
        refine ih _ _ p ?_ h
        exact enqueueNeighbors_queueOk (hq (id, path) (List.mem_cons_self _ _))
          _ (fun x hx => hx) (rest, visited)
          (fun e he => hq e (List.mem_cons_of_mem _ he))

lemma findPath_sound {s : GameState} {f : Faction} {start endId : String} {p : List String}
    (h : findPath start endId f s = some p) : ReachesVia s f start p endId := by
  unfold findPath at h
  by_cases hse : start = endId
  · rw [if_pos hse] at h
    cases h
    exact ⟨rfl, hse⟩
  · rw [if_neg hse] at h
    exact bfsLoop_sound (pathFuel s) [(start, [])] [start] p
      (fun e he => by
        have : e = (start, []) := List.mem_singleton.mp he
        subst this
        exact ⟨rfl, rfl⟩) h



lemma enqueueNeighbors_append (s : GameState) (f : Faction) (id : String)
    (path : List String) :
    ∀ (conns : List String) (q : List (String × List String)) (v : List String),
      ∃ extra, (enqueueNeighbors s f id path conns (q, v)).1 = q ++ extra := by
  intro conns
  induction conns with
  | nil => intro q v; exact ⟨[], by simp [enqueueNeighbors]⟩
  | cons c rest ih =>
    intro q v
    unfold enqueueNeighbors
    rw [List.foldl_cons]
    show ∃ extra, (enqueueNeighbors s f id path rest _).1 = q ++ extra
    split
    · exact ih q v
    split
    · obtain ⟨extra, hextra⟩ := ih (q ++ [(c, path ++ [c])]) (c :: v)
      exact ⟨(c, path ++ [c]) :: extra, by rw [hextra, List.append_assoc]; rfl⟩
    · exact ih q v

lemma enqueue_finds_target (s : GameState) (f : Faction) (id endId : String)
    (path : List String) (htrav : canTraverse s f id endId = true) :
    ∀ (conns : List String) (q : List (String × List String)) (v : List String),
      endId ∈ conns → endId ∉ v → (∀ e ∈ q, e.1 ≠ endId) →
      ∃ pre post, (enqueueNeighbors s f id path conns (q, v)).1
          = pre ++ (endId, path ++ [endId]) :: post ∧
        (∀ e ∈ pre, e.1 ≠ endId) ∧ pre.length ≤ q.length + conns.length := by
  intro conns
  induction conns with
  | nil => intro q v hmem; exact absurd hmem (List.not_mem_nil endId)
  | cons c rest ih =>
    intro q v hmem hnv hq
    unfold enqueueNeighbors
    rw [List.foldl_cons]
    by_cases hc : c = endId
    · subst hc
      rw [show (if c ∈ v then (q, v)
          else if canTraverse s f id c then (q ++ [(c, path ++ [c])], c :: v) else (q, v))
          = (q ++ [(c, path ++ [c])], c :: v) from by
        rw [if_neg hnv, if_pos htrav]]
      obtain ⟨extra, hextra⟩ :=
        enqueueNeighbors_append s f id path rest (q ++ [(c, path ++ [c])]) (c :: v)
      refine ⟨q, extra, ?_, hq, by simp⟩
      show (enqueueNeighbors s f id path rest _).1 = _
      rw [hextra, List.append_assoc]
      rfl
    · have hmem' : endId ∈ rest := by
        rcases List.mem_cons.mp hmem with h | h
        · exact absurd h.symm hc
        · exact h
      split
      · obtain ⟨pre, post, h1, h2, h3⟩ := ih q v hmem' hnv hq
        exact ⟨pre, post, h1, h2, by
          simp only [List.length_cons] at h3 ⊢
          omega⟩
      split
      · obtain ⟨pre, post, h1, h2, h3⟩ := ih (q ++ [(c, path ++ [c])]) (c :: v) hmem'
          (by
            intro h
            rcases List.mem_cons.mp h with h | h
            · exact hc h.symm
            · exact hnv h)
          (by
            intro e he
            rcases List.mem_append.mp he with h | h
            · exact hq e h
            · rw [List.mem_singleton.mp h]; exact hc)
        refine ⟨pre, post, h1, h2, ?_⟩
        simp only [List.length_append, List.length_cons, List.length_nil] at h3 ⊢
        omega
      · obtain ⟨pre, post, h1, h2, h3⟩ := ih q v hmem' hnv hq
        exact ⟨pre, post, h1, h2, by
          simp only [List.length_cons] at h3 ⊢
          omega⟩

lemma bfs_hits_head (s : GameState) (f : Faction) (endId : String) (p : List String) :
    ∀ (pre : List (String × List String)) (fuel : Nat)
      (post : List (String × List String)) (visited : List String),
      (∀ e ∈ pre, e.1 ≠ endId) → pre.length + 1 ≤ fuel →
      bfsLoop s f endId fuel (pre ++ (endId, p) :: post) visited = some p := by
  intro pre
  induction pre with
  | nil =>
    intro fuel post visited _ hfuel
    rcases fuel with _ | n
    · omega
    · rw [List.nil_append, bfsLoop, if_pos rfl]
  | cons e pre' ih =>
    intro fuel post visited hpre hfuel
    rcases fuel with _ | n
    · omega
    · rcases e with ⟨a, pa⟩
      rw [List.cons_append, bfsLoop,
        if_neg (hpre (a, pa) (List.mem_cons_self _ _))]
      dsimp only
      obtain ⟨extra, hextra⟩ := enqueueNeighbors_append s f a pa
        (nodeOf s.nodes a).connections (pre' ++ (endId, p) :: post) visited
      rw [show (enqueueNeighbors s f a pa (nodeOf s.nodes a).connections
          (pre' ++ (endId, p) :: post, visited)).1 = pre' ++ (endId, p) :: (post ++ extra) from by
        rw [hextra, List.append_assoc, List.cons_append]]
      exact ih n (post ++ extra) _ (fun x hx => hpre x (List.mem_cons_of_mem _ hx))
        (by simp at hfuel ⊢; omega)

lemma findPath_direct (s : GameState) (f : Faction) (startId endId : String)
    (node : GameNode) (hne : startId ≠ endId)
    (hstart : nodesGet s.nodes startId = some node)
    (hconn : endId ∈ node.connections)
    (htrav : canTraverse s f startId endId = true) :
    findPath startId endId f s = some [endId] := by
  unfold findPath
  rw [if_neg hne]
  have hnodeOf : nodeOf s.nodes startId = node := by
    unfold nodeOf
    rw [hstart]
    rfl
  have hsum : node.connections.length ≤ (s.nodes.map fun p => p.2.connections.length).sum := by
    have hmem : (startId, node) ∈ s.nodes := nodesGet_mem hstart
    have : node.connections.length ∈ s.nodes.map fun p => p.2.connections.length :=
      List.mem_map.mpr ⟨(startId, node), hmem, rfl⟩
    exact List.single_le_sum (fun x _ => Nat.zero_le x) _ this
  have hlen : 1 ≤ s.nodes.length :=
    List.length_pos.mpr (List.ne_nil_of_mem (nodesGet_mem hstart))
  show bfsLoop s f endId ((s.nodes.map fun p => p.2.connections.length).sum
      + s.nodes.length + 1) [(startId, [])] [startId] = some [endId]
  rw [show ((s.nodes.map fun p => p.2.connections.length).sum + s.nodes.length + 1)
      = ((s.nodes.map fun p => p.2.connections.length).sum + s.nodes.length) + 1 from rfl]
  rw [bfsLoop, if_neg hne]
  rw [hnodeOf]
  dsimp only
  obtain ⟨pre, post, h1, h2, h3⟩ := enqueue_finds_target s f startId endId [] htrav
    node.connections [] [startId] hconn
    (by intro h; exact hne (List.mem_singleton.mp h).symm) (by simp)
  rw [show (enqueueNeighbors s f startId [] node.connections ([], [startId])).1
      = pre ++ (endId, [] ++ [endId]) :: post from h1]
  have := bfs_hits_head s f endId ([] ++ [endId]) pre
    ((s.nodes.map fun p => p.2.connections.length).sum + s.nodes.length) post
    (enqueueNeighbors s f startId [] node.connections ([], [startId])).2 h2 (by
      simp only [List.length_nil, Nat.zero_add] at h3
      omega)
  rw [this]
  rfl



lemma no_route_to (s : GameState) (f : Faction) (bad : String)
    (hbad : ∀ a, (decide (bad ∈ (nodeOf s.nodes a).connections) &&
      canTraverse s f a bad) = false) :
    ∀ (start : String) (p : List String), start ≠ bad →
      routeOk s f start p = true → p.getLastD start ≠ bad := by
  intro start p
  induction p generalizing start with
  | nil => intro h _; simpa using h
  | cons b rest ih =>
    intro hne hr
    rw [routeOk] at hr
    simp only [Bool.and_eq_true] at hr
    rw [List.getLastD_cons]
    by_cases hb : b = bad
    · subst hb
      exact absurd (hbad start) (by simp [hr.1.1, hr.1.2])
    · exact ih b hb hr.2

/-- C6: `findPath` returns the empty path when start equals end; returns the
distinct "unreachable" value `none` (not an error) whenever no route exists
under the current fleet placement (a non-Sea→Sea edge needs a friendly Fleet
in the target Sea node); and for a directly connected, traversable pair it
returns the single-element path ending at the destination. -/
theorem pathfinder_contract_c6 :
    (∀ (startId : String) (faction : Faction) (s : GameState),
      findPath startId startId faction s = some []) ∧
    (∀ (startId endId : String) (faction : Faction) (s : GameState),
      ¬ Reachable s faction startId endId →
      findPath startId endId faction s = none) ∧
    (∀ (startId endId : String) (faction : Faction) (s : GameState) (node : GameNode),
      startId ≠ endId →
      nodesGet s.nodes startId = some node →
      endId ∈ node.connections →
      canTraverse s faction startId endId = true →
      findPath startId endId faction s = some [endId]) := by
  refine ⟨?_, ?_, ?_⟩
  · intro startId faction s
    unfold findPath
    rw [if_pos rfl]
  · intro startId endId faction s hun
    cases h : findPath startId endId faction s with
    | none => rfl
    | some p => exact absurd ⟨p, findPath_sound h⟩ hun
  · intro startId endId faction s node hne hstart hconn htrav
    exact findPath_direct s faction startId endId node hne hstart hconn htrav


/-- A world with no nodes at all: nothing is connected. -/
def emptyWorldState : GameState := { initialState with nodes := [], units := [] }

theorem pathfinder_contract_c6_witness :
    findPath "rome" "rome" Faction.ROME initialState = some [] ∧
    findPath "a" "b" Faction.ROME emptyWorldState = none ∧
    findPath "rome" "capua" Faction.ROME initialState = some ["capua"] :=
  ⟨pathfinder_contract_c6.1 "rome" Faction.ROME initialState,
    pathfinder_contract_c6.2.1 "a" "b" Faction.ROME emptyWorldState
      (fun ⟨p, hr, hl⟩ => absurd hl
        (no_route_to emptyWorldState Faction.ROME "b" (fun _ => rfl) "a" p (by decide) hr)),
    pathfinder_contract_c6.2.2 "rome" "capua" Faction.ROME initialState
      (nodeOf initialState.nodes "rome") (by decide) rfl (by decide) (by decide)⟩


/-- Every faction's gold ledger is non-negative. -/
def GoldNonneg (s : GameState) : Prop := ∀ f : Faction, 0 ≤ s.resources.gold.get f

/-- Every node's annual income is non-negative. -/
def NodesIncomeOk (nodes : List (String × GameNode)) : Prop :=
  ∀ p ∈ nodes, 0 ≤ p.2.income

/-- The inductive invariant behind gold non-negativity. -/
def GoldInv (s : GameState) : Prop := GoldNonneg s ∧ NodesIncomeOk s.nodes

lemma FactionMap.get_set (m : FactionMap α) (f g : Faction) (v : α) :
    (m.set f v).get g = if g = f then v else m.get g := by
  cases f <;> cases g <;> simp [FactionMap.set, FactionMap.get]

lemma goldNonneg_add {m : FactionMap Int} (h : ∀ f, 0 ≤ m.get f) (g : Faction) (c : Int)
    (hc : 0 ≤ c) : ∀ f, 0 ≤ (m.set g (m.get g + c)).get f := by
  intro f
  rw [FactionMap.get_set]
  split
  · exact add_nonneg (h g) hc
  · exact h f

lemma goldNonneg_spend {m : FactionMap Int} (h : ∀ f, 0 ≤ m.get f) (g : Faction) (c : Int)
    (hcheck : c ≤ m.get g) : ∀ f, 0 ≤ (m.set g (m.get g - c)).get f := by
  intro f
  rw [FactionMap.get_set]
  split
  · exact sub_nonneg.mpr hcheck
  · exact h f

lemma nodeOf_income_nonneg {nodes : List (String × GameNode)} (h : NodesIncomeOk nodes)
    (id : String) : 0 ≤ (nodeOf nodes id).income := by
  unfold nodeOf
  cases hget : nodesGet nodes id with
  | none => decide
  | some n => exact h (id, n) (nodesGet_mem hget)

lemma nodesIncomeOk_setNode {nodes : List (String × GameNode)} {k : String} {n : GameNode}
    (h : NodesIncomeOk nodes) (hn : 0 ≤ n.income) : NodesIncomeOk (setNode nodes k n) := by
  induction nodes with
  | nil => intro p hp; simp [setNode] at hp
  | cons q rest ih =>
    intro p hp
    rw [setNode] at hp
    split at hp
    · rcases List.mem_cons.mp hp with hEq | hmem
      · rw [hEq]; exact hn
      · exact h p (List.mem_cons_of_mem q hmem)
    · rcases List.mem_cons.mp hp with hEq | hmem
      · rw [hEq]; exact h q (List.mem_cons_self q rest)
      · exact ih (fun r hr => h r (List.mem_cons_of_mem q hr)) p hmem

lemma foldl_income_nonneg (l : List GameNode) :
    ∀ (init : Int), 0 ≤ init → (∀ n ∈ l, 0 ≤ n.income) →
      0 ≤ l.foldl (fun acc n => acc + n.income) init := by
  induction l with
  | nil => intro init h _; exact h
  | cons n rest ih =>
    intro init h hl
    rw [List.foldl_cons]
    exact ih _ (add_nonneg h (hl n (List.mem_cons_self n rest)))
      (fun m hm => hl m (List.mem_cons_of_mem n hm))

lemma incomeSum_nonneg {s : GameState} (h : NodesIncomeOk s.nodes) (f : Faction) :
    0 ≤ incomeSum s f := by
  unfold incomeSum
  apply foldl_income_nonneg _ 0 (le_refl 0)
  intro n hn
  have hn' : n ∈ s.nodes.map Prod.snd := List.mem_of_mem_filter hn
  obtain ⟨p, hp, hpe⟩ := List.mem_map.mp hn'
  rw [← hpe]
  exact h p hp



lemma goldInv_seasonPhase {s : GameState} (h : GoldInv s) : GoldInv (seasonPhase s).1 := h

lemma regenNode_income (n : GameNode) : (regenNode n).income = n.income := by
  unfold regenNode
  split <;> rfl

lemma goldInv_regenPhase {s : GameState} (h : GoldInv s) : GoldInv (regenPhase s) := by
  refine ⟨h.1, ?_⟩
  intro p hp
  obtain ⟨q, hq, hqe⟩ := List.mem_map.mp hp
  rw [← hqe]
  show 0 ≤ (regenNode q.2).income
  rw [regenNode_income]
  exact h.2 q hq

lemma goldInv_tradePhase {s : GameState} (h : GoldInv s) : GoldInv (tradePhase s) := by
  refine ⟨?_, h.2⟩
  intro f
  show 0 ≤ (FactionMap.set _ _ _).get f
  apply goldNonneg_add
  · apply goldNonneg_add h.1
    exact mul_nonneg (Int.natCast_nonneg _) (by decide)
  · exact mul_nonneg (Int.natCast_nonneg _) (by decide)

lemma goldInv_autumnPhase {s : GameState} (h : GoldInv s) : GoldInv (autumnPhase s).1 := by
  unfold autumnPhase
  split
  · refine ⟨?_, h.2⟩
    intro f
    show 0 ≤ (FactionMap.set _ _ _).get f
    apply goldNonneg_add
    · apply goldNonneg_add h.1
      exact incomeSum_nonneg h.2 _
    · exact incomeSum_nonneg h.2 _
  · exact h

lemma applyConquest_fst_resources (st : GameState) (u : Unit) (loc : GameNode) :
    (applyConquest st u loc).1.resources = st.resources := by
  unfold applyConquest
  dsimp only
  split
  · split <;> split <;> rfl
  · rfl

lemma applyConquest_fst_incomes {st : GameState} (u : Unit) (loc : GameNode)
    (h : NodesIncomeOk st.nodes) (hloc : 0 ≤ loc.income) :
    NodesIncomeOk (applyConquest st u loc).1.nodes := by
  unfold applyConquest
  dsimp only
  split
  · have hset : NodesIncomeOk (setNode st.nodes loc.id
        { loc with owner := u.owner, fortificationLevel := 0 }) :=
      nodesIncomeOk_setNode h hloc
    split
    · split
      · exact hset
      · exact hset
    · split
      · exact hset
      · exact hset
  · exact h

lemma arrivalStep_st_resources (c : TickCtx) (i : Nat) :
    (arrivalStep c i).st.resources = c.st.resources := by
  unfold arrivalStep
  dsimp only
  split
  · rfl
  · split
    · rfl
    · split
      · rfl
      · split
        · split
          · simp [applyConquest_fst_resources]
          · rfl
        · rfl

lemma arrivalStep_st_incomes {c : TickCtx} (i : Nat) (h : NodesIncomeOk c.st.nodes) :
    NodesIncomeOk (arrivalStep c i).st.nodes := by
  unfold arrivalStep
  dsimp only
  split
  · exact h
  · split
    · exact h
    · split
      · exact h
      · split
        · split
          · exact applyConquest_fst_incomes _ _ h (nodeOf_income_nonneg h _)
          · exact h
        · exact h

lemma goldInv_arrivalsPhase {c : TickCtx} (h : GoldInv c.st) : GoldInv (arrivalsPhase c).st := by
  have hfold : ∀ (l : List Nat) (d : TickCtx), GoldInv d.st → GoldInv (l.foldl arrivalStep d).st := by
    intro l
    induction l with
    | nil => intro d hd; exact hd
    | cons i rest ih =>
      intro d hd
      rw [List.foldl_cons]
      refine ih _ ⟨?_, arrivalStep_st_incomes i hd.2⟩
      intro f
      rw [arrivalStep_st_resources]
      exact hd.1 f
  unfold arrivalsPhase
  dsimp only
  exact (hfold _ c h)



lemma goldInv_applyAIRecruit {acc : GameState × Nat} (rec : String × UnitType)
    (h : GoldInv acc.1) : GoldInv (applyAIRecruit acc rec).1 := by
  unfold applyAIRecruit
  dsimp only
  split
  · split
    next hcheck =>
      refine ⟨?_, ?_⟩
      · intro f
        show 0 ≤ (FactionMap.set _ _ _).get f
        exact goldNonneg_spend h.1 _ _ hcheck.1 f
      · show NodesIncomeOk (setNode _ _ _)
        exact nodesIncomeOk_setNode h.2 (nodeOf_income_nonneg h.2 _)
    next => exact h
  · split
    next hcheck =>
      refine ⟨?_, ?_⟩
      · intro f
        show 0 ≤ (FactionMap.set _ _ _).get f
        exact goldNonneg_spend h.1 _ _ hcheck.1 f
      · show NodesIncomeOk (setNode _ _ _)
        exact nodesIncomeOk_setNode h.2 (nodeOf_income_nonneg h.2 _)
    next => exact h

lemma goldInv_aiPhase {s : GameState} (r : Rand) (uid : Nat) (h : GoldInv s) :
    GoldInv (aiPhase s r uid) := by
  unfold aiPhase
  split
  · have hrec : ∀ (l : List (String × UnitType)) (acc : GameState × Nat), GoldInv acc.1 →
        GoldInv (l.foldl applyAIRecruit acc).1 := by
      intro l
      induction l with
      | nil => intro acc ha; exact ha
      | cons rec rest ih =>
        intro acc ha
        rw [List.foldl_cons]
        exact ih _ (goldInv_applyAIRecruit rec ha)
    have hmov : ∀ (l : List (String × String)) (st : GameState), GoldInv st →
        GoldInv (l.foldl (fun st mv =>
          { st with units := setUnitMoveFirst st.units mv.1 mv.2 }) st) := by
      intro l
      induction l with
      | nil => intro st ha; exact ha
      | cons mv rest ih =>
        intro st ha
        rw [List.foldl_cons]
        exact ih _ ha
    exact hmov _ _ (hrec _ (s, uid) h)
  · exact h

lemma goldInv_updateGame {s : GameState} (r : Rand) (uid : Nat) (h : GoldInv s) :
    GoldInv (updateGame r uid s) := by
  unfold updateGame
  split
  · exact h
  · dsimp only
    split
    · apply goldInv_aiPhase
      apply goldInv_arrivalsPhase
      show GoldInv (autumnPhase _).1
      apply goldInv_autumnPhase
      apply goldInv_tradePhase
      apply goldInv_regenPhase
      exact goldInv_seasonPhase h
    · apply goldInv_aiPhase
      apply goldInv_arrivalsPhase
      show GoldInv (autumnPhase _).1
      apply goldInv_autumnPhase
      apply goldInv_tradePhase
      apply goldInv_regenPhase
      exact goldInv_seasonPhase h



lemma goldInv_handleRecruit {s : GameState} (newId : String) (t : UnitType)
    (h : GoldInv s) : GoldInv (handleRecruit newId t s) := by
  unfold handleRecruit
  split
  · exact h
  · split
    · exact h
    · dsimp only
      split
      · exact h
      next node hget =>
        split
        · split
          next hcheck =>
            refine ⟨?_, ?_⟩
            · intro f
              show 0 ≤ (FactionMap.set _ _ _).get f
              exact goldNonneg_spend h.1 _ _ hcheck.1 f
            · show NodesIncomeOk (setNode _ _ _)
              exact nodesIncomeOk_setNode h.2 (h.2 _ (nodesGet_mem hget))
          · exact h
        · split
          next hcheck =>
            refine ⟨?_, ?_⟩
            · intro f
              show 0 ≤ (FactionMap.set _ _ _).get f
              exact goldNonneg_spend h.1 _ _ hcheck.1 f
            · show NodesIncomeOk (setNode _ _ _)
              exact nodesIncomeOk_setNode h.2 (h.2 _ (nodesGet_mem hget))
          · exact h

lemma goldInv_handleFortify {s : GameState} (h : GoldInv s) : GoldInv (handleFortify s) := by
  unfold handleFortify
  split
  · exact h
  · dsimp only
    split
    · exact h
    next node hget =>
      split
      next hcheck =>
        refine ⟨?_, ?_⟩
        · intro f
          show 0 ≤ (FactionMap.set _ _ _).get f
          exact goldNonneg_spend h.1 _ _ hcheck.1 f
        · show NodesIncomeOk (setNode _ _ _)
          exact nodesIncomeOk_setNode h.2 (h.2 _ (nodesGet_mem hget))
      · exact h

lemma goldInv_handleNodeClick {s : GameState} (id : String) (h : GoldInv s) :
    GoldInv (handleNodeClick id s) := by
  unfold handleNodeClick
  split
  · exact h
  · split
    · split
      · split
        · dsimp only
          split
          · exact h
          · exact h
        · exact h
      · exact h
    · exact h

lemma goldInv_applyCmd {s : GameState} (c : Cmd) (h : GoldInv s) : GoldInv (applyCmd c s) := by
  cases c with
  | recruit newId t => exact goldInv_handleRecruit newId t h
  | fortify => exact goldInv_handleFortify h
  | nodeClick id => exact goldInv_handleNodeClick id h
  | rally =>
    show GoldInv (handleRally s)
    unfold handleRally
    split
    · exact h
    · exact h
  | halt =>
    show GoldInv (handleHalt s)
    unfold handleHalt
    split
    · exact h
    · exact h
  | enterMove =>
    show GoldInv (enterMoveMode s)
    unfold enterMoveMode
    split
    · exact h
    · exact h
  | pauseToggle => exact h
  | start f => exact h

lemma goldInv_applyEv {s : GameState} (e : Ev) (h : GoldInv s) : GoldInv (applyEv e s) := by
  cases e with
  | tick r uid => exact goldInv_updateGame r uid h
  | cmd c => exact goldInv_applyCmd c h

lemma goldInv_initialState : GoldInv initialState := by
  constructor
  · intro f
    cases f <;> decide
  · show ∀ p ∈ initialState.nodes, 0 ≤ p.2.income
    decide

/-- C8: starting from the initial world, after any sequence of ticks and
player commands every faction's gold ledger stays non-negative — every
gold-spending operation (player recruit, fortify, AI recruit) checks the
treasury before deducting, and all gold inflows (trade, autumn taxes) are
non-negative. -/
theorem gold_nonneg_c8 :
    ∀ (evs : List Ev) (f : Faction),
      0 ≤ (runEvents initialState evs).resources.gold.get f := by
  have hrun : ∀ (evs : List Ev) (s : GameState), GoldInv s → GoldInv (runEvents s evs) := by
    intro evs
    induction evs with
    | nil => intro s h; exact h
    | cons e rest ih =>
      intro s h
      rw [runEvents]
      exact ih _ (goldInv_applyEv e h)
  intro evs f
  exact (hrun evs initialState goldInv_initialState).1 f


end Punic
